import Mathlib

/-!
Verification development for the raster-image core (rtextures) bundled with the
attack-breaker repository.  The C source is shallowly embedded: machine
integers become `ℕ`/`ℤ` with explicit truncation, pixel buffers become total
functions `ℕ → ℕ` (byte at offset) together with an explicit length, and the
IEEE-754 binary32 arithmetic used by the pixel codec is emulated exactly by a
dyadic significand/exponent pair with round-to-nearest-even.
-/

namespace RTex

/-- C `(unsigned char)` cast of a non-negative integer value. -/
def u8 (n : ℕ) : ℕ := n % 256

/-! ## IEEE-754 binary32 emulation

The pixel codec performs `float` arithmetic (channel normalization, luma
weights, `round`).  We model non-negative binary32 values exactly: a value is
`m * 2^e` with `m = 0` (zero) or `2^23 ≤ m < 2^24` (normal numbers).  All
values arising in the embedded code are zero or normal and non-negative, so
this range suffices; operations round to nearest, ties to even, exactly as
IEEE-754 prescribes for the default rounding mode. -/

structure F32 where
  m : ℕ
  e : ℤ
deriving DecidableEq

/-- Round `a / b` to the nearest integer, ties to even. -/
def rne (a b : ℕ) : ℕ :=
  let q := a / b
  let r := a % b
  if 2 * r < b then q
  else if b < 2 * r then q + 1
  else if q % 2 = 0 then q else q + 1

/-- Fuel-driven base-2 logarithm, structurally recursive so that proofs can
evaluate it (`Nat.log2` itself is defined by well-founded recursion). -/
def natLog2Aux : ℕ → ℕ → ℕ
  | 0, _ => 0
  | fuel + 1, n => if 2 ≤ n then natLog2Aux fuel (n / 2) + 1 else 0

/-- `⌊log₂ n⌋` (0 at 0). -/
def natLog2 (n : ℕ) : ℕ := natLog2Aux n n

/-- `⌊log₂ (n / d)⌋` for positive naturals `n`, `d`. -/
def dyLog2 (n d : ℕ) : ℤ :=
  let a := natLog2 n
  let b := natLog2 d
  if b ≤ a then
    (if d * 2 ^ (a - b) ≤ n then ((a : ℤ) - b) else ((a : ℤ) - b) - 1)
  else
    (if d ≤ n * 2 ^ (b - a) then -((b : ℤ) - a) else -((b : ℤ) - a) - 1)

/-- Round the rational `(n / d) * 2^e` to binary32 (nearest, ties to even). -/
def roundDy (n d : ℕ) (e : ℤ) : F32 :=
  if n = 0 then ⟨0, 0⟩ else
  let z := dyLog2 n d
  let s : ℤ := 23 - z
  let num := n * 2 ^ s.toNat
  let den := d * 2 ^ (-s).toNat
  let m := rne num den
  if m = 2 ^ 24 then ⟨2 ^ 23, e + z - 22⟩ else ⟨m, e + z - 23⟩

def F32.ofNat (k : ℕ) : F32 := roundDy k 1 0

/-- binary32 multiplication (correctly rounded). -/
def fmul (a b : F32) : F32 := roundDy (a.m * b.m) 1 (a.e + b.e)

/-- binary32 division by an exactly representable natural (correctly rounded). -/
def fdivNat (a : F32) (d : ℕ) : F32 := roundDy a.m d a.e

/-- binary32 addition (correctly rounded). -/
def fadd (a b : F32) : F32 :=
  if a.m = 0 then b else if b.m = 0 then a else
  let e := min a.e b.e
  roundDy (a.m * 2 ^ (a.e - e).toNat + b.m * 2 ^ (b.e - e).toNat) 1 e

/-- C truncation-toward-zero cast of a non-negative binary32 value. -/
def F32.floor (a : F32) : ℕ :=
  if 0 ≤ a.e then a.m * 2 ^ a.e.toNat else a.m / 2 ^ (-a.e).toNat

/-- C `round` (nearest, halves away from zero) of a non-negative value. -/
def F32.roundHalf (a : F32) : ℕ :=
  if 0 ≤ a.e then a.m * 2 ^ a.e.toNat
  else (a.m + 2 ^ ((-a.e).toNat - 1)) / 2 ^ (-a.e).toNat

/-- Strict comparison of two non-negative binary32 values. -/
def F32.lt (a b : F32) : Bool :=
  let e := min a.e b.e
  a.m * 2 ^ (a.e - e).toNat < b.m * 2 ^ (b.e - e).toNat

/-- The float literal `0.299f` (luma red weight). -/
def w299 : F32 := roundDy 299 1000 0

/-- The float literal `0.587f` (luma green weight). -/
def w587 : F32 := roundDy 587 1000 0

/-- The float literal `0.114f` (luma blue weight). -/
def w114 : F32 := roundDy 114 1000 0

/-! ## Pixel formats

Modelled from the spec: the `PixelFormat` enumeration lives in the `raylib.h`
header the source compiles against, which is not under `src/`; the numeric
codes below follow that header (the range comparisons in the source, e.g.
`format >= PIXELFORMAT_COMPRESSED_DXT1_RGB`, require exactly this ordering),
and the spec §3 lists the same closed enumeration. -/

def PIXELFORMAT_UNCOMPRESSED_GRAYSCALE : ℤ := 1
def PIXELFORMAT_UNCOMPRESSED_GRAY_ALPHA : ℤ := 2
def PIXELFORMAT_UNCOMPRESSED_R5G6B5 : ℤ := 3
def PIXELFORMAT_UNCOMPRESSED_R8G8B8 : ℤ := 4
def PIXELFORMAT_UNCOMPRESSED_R5G5B5A1 : ℤ := 5
def PIXELFORMAT_UNCOMPRESSED_R4G4B4A4 : ℤ := 6
def PIXELFORMAT_UNCOMPRESSED_R8G8B8A8 : ℤ := 7
def PIXELFORMAT_UNCOMPRESSED_R32 : ℤ := 8
def PIXELFORMAT_UNCOMPRESSED_R32G32B32 : ℤ := 9
def PIXELFORMAT_UNCOMPRESSED_R32G32B32A32 : ℤ := 10
def PIXELFORMAT_COMPRESSED_DXT1_RGB : ℤ := 11
def PIXELFORMAT_COMPRESSED_DXT1_RGBA : ℤ := 12
def PIXELFORMAT_COMPRESSED_DXT3_RGBA : ℤ := 13
def PIXELFORMAT_COMPRESSED_DXT5_RGBA : ℤ := 14
def PIXELFORMAT_COMPRESSED_ETC1_RGB : ℤ := 15
def PIXELFORMAT_COMPRESSED_ETC2_RGB : ℤ := 16
def PIXELFORMAT_COMPRESSED_ETC2_EAC_RGBA : ℤ := 17
def PIXELFORMAT_COMPRESSED_PVRT_RGB : ℤ := 18
def PIXELFORMAT_COMPRESSED_PVRT_RGBA : ℤ := 19
def PIXELFORMAT_COMPRESSED_ASTC_4x4_RGBA : ℤ := 20
def PIXELFORMAT_COMPRESSED_ASTC_8x8_RGBA : ℤ := 21

/-- `#define PIXELFORMAT_UNCOMPRESSED_R5G5B5A1_ALPHA_THRESHOLD 50`. -/
def R5G5B5A1_ALPHA_THRESHOLD : ℕ := 50

/-- `Color`: 4 × 8-bit RGBA (each field is `unsigned char` in C). -/
structure Color where
  r : ℕ
  g : ℕ
  b : ℕ
  a : ℕ
deriving DecidableEq

/-- All four channels fit in an `unsigned char`, as the C type guarantees. -/
def Color.valid (c : Color) : Prop := c.r < 256 ∧ c.g < 256 ∧ c.b < 256 ∧ c.a < 256

instance (c : Color) : Decidable c.valid := by unfold Color.valid; infer_instance

def WHITE : Color := ⟨255, 255, 255, 255⟩

/-- The `bpp` switch inside `GetPixelDataSize` (bits per pixel; `default: 0`). -/
def pixelFormatBpp (format : ℤ) : ℤ :=
  if format = PIXELFORMAT_UNCOMPRESSED_GRAYSCALE then 8
  else if format = PIXELFORMAT_UNCOMPRESSED_GRAY_ALPHA ∨ format = PIXELFORMAT_UNCOMPRESSED_R5G6B5 ∨
      format = PIXELFORMAT_UNCOMPRESSED_R5G5B5A1 ∨ format = PIXELFORMAT_UNCOMPRESSED_R4G4B4A4 then 16
  else if format = PIXELFORMAT_UNCOMPRESSED_R8G8B8A8 then 32
  else if format = PIXELFORMAT_UNCOMPRESSED_R8G8B8 then 24
  else if format = PIXELFORMAT_UNCOMPRESSED_R32 then 32
  else if format = PIXELFORMAT_UNCOMPRESSED_R32G32B32 then 32 * 3
  else if format = PIXELFORMAT_UNCOMPRESSED_R32G32B32A32 then 32 * 4
  else if format = PIXELFORMAT_COMPRESSED_DXT1_RGB ∨ format = PIXELFORMAT_COMPRESSED_DXT1_RGBA ∨
      format = PIXELFORMAT_COMPRESSED_ETC1_RGB ∨ format = PIXELFORMAT_COMPRESSED_ETC2_RGB ∨
      format = PIXELFORMAT_COMPRESSED_PVRT_RGB ∨ format = PIXELFORMAT_COMPRESSED_PVRT_RGBA then 4
  else if format = PIXELFORMAT_COMPRESSED_DXT3_RGBA ∨ format = PIXELFORMAT_COMPRESSED_DXT5_RGBA ∨
      format = PIXELFORMAT_COMPRESSED_ETC2_EAC_RGBA ∨ format = PIXELFORMAT_COMPRESSED_ASTC_4x4_RGBA then 8
  else if format = PIXELFORMAT_COMPRESSED_ASTC_8x8_RGBA then 2
  else 0

/-- `GetPixelDataSize(width, height, format)`; C `int` division truncates
toward zero (`Int.tdiv`). -/
def GetPixelDataSize (width height format : ℤ) : ℤ :=
  let bpp := pixelFormatBpp format
  let dataSize := Int.tdiv (width * height * bpp) 8
  if width < 4 ∧ height < 4 then
    if PIXELFORMAT_COMPRESSED_DXT1_RGB ≤ format ∧ format < PIXELFORMAT_COMPRESSED_DXT3_RGBA then 8
    else if PIXELFORMAT_COMPRESSED_DXT3_RGBA ≤ format ∧ format < PIXELFORMAT_COMPRESSED_ASTC_8x8_RGBA then 16
    else dataSize
  else dataSize

/-! ## Per-pixel codec -/

/-- Read the byte at (possibly `int`-typed) offset `off`; negative offsets are
out of the modelled domain (undefined behaviour in C). -/
def readByte (buf : ℕ → ℕ) (off : ℤ) : ℕ := buf off.toNat

/-- Read a little-endian `unsigned short` at byte offset `off`. -/
def readShort (buf : ℕ → ℕ) (off : ℤ) : ℕ := readByte buf off + 256 * readByte buf (off + 1)

/-- The two bytes of a little-endian `unsigned short` store. -/
def shortBytes (s : ℕ) : List ℕ := [s % 65536 % 256, s % 65536 / 256]

/-- The grayscale computation
`(unsigned char)((coln.x*0.299f + coln.y*0.587f + coln.z*0.114f)*255.0f)` on
already-normalized floats.  The source inlines this expression identically in
`SetPixelColor`, `ImageDrawPixel` and `ImageFormat`. -/
def lumaGrayF (x y z : F32) : ℕ :=
  (fmul (fadd (fadd (fmul x w299) (fmul y w587)) (fmul z w114)) (F32.ofNat 255)).floor

/-- Same computation starting from 8-bit channels `coln = channel/255.0f`. -/
def lumaGray (r g b : ℕ) : ℕ :=
  lumaGrayF (fdivNat (F32.ofNat r) 255) (fdivNat (F32.ofNat g) 255) (fdivNat (F32.ofNat b) 255)

/-- `(unsigned char)(round((v/255.0f)*scale))` — the narrow-channel quantizer
(`scale` is 31, 63 or 15 in the source). -/
def qRound (v scale : ℕ) : ℕ := (fmul (fdivNat (F32.ofNat v) 255) (F32.ofNat scale)).roundHalf

/-- The R5G5B5A1 alpha threshold test
`coln.w > ((float)PIXELFORMAT_UNCOMPRESSED_R5G5B5A1_ALPHA_THRESHOLD/255.0f)`. -/
def alphaAboveThreshold (a : ℕ) : Bool :=
  F32.lt (fdivNat (F32.ofNat R5G5B5A1_ALPHA_THRESHOLD) 255) (fdivNat (F32.ofNat a) 255)

/-- IEEE binary32 value of a 32-bit pattern (sign, magnitude).  Subnormal,
infinity and NaN encodings do not occur in the verified scenarios and are
modelled as zero. -/
def f32FromBits (bits : ℕ) : Bool × F32 :=
  let sign := bits >>> 31
  let expo := (bits >>> 23) &&& 255
  let frac := bits &&& 8388607
  if expo = 0 ∨ expo = 255 then (sign = 1, ⟨0, 0⟩)
  else (sign = 1, ⟨8388608 + frac, (expo : ℤ) - 150⟩)

/-- Bit pattern of a non-negative zero-or-normal binary32 value. -/
def f32ToBits (a : F32) : ℕ :=
  if a.m = 0 then 0
  else ((a.e + 150).toNat % 256) <<< 23 ||| (a.m - 8388608)

/-- The four little-endian bytes of a binary32 store. -/
def f32Bytes (a : F32) : List ℕ :=
  [f32ToBits a % 256, f32ToBits a / 256 % 256, f32ToBits a / 65536 % 256, f32ToBits a / 16777216 % 256]

/-- Read a binary32 at byte offset `off` (little-endian). -/
def readF32 (buf : ℕ → ℕ) (off : ℤ) : Bool × F32 :=
  f32FromBits (readByte buf off + 256 * readByte buf (off + 1) +
    65536 * readByte buf (off + 2) + 16777216 * readByte buf (off + 3))

/-- `(unsigned char)(f*255.0f)`; a negative `f` is undefined behaviour in C
and modelled as 0. -/
def f32ChannelU8 (sf : Bool × F32) : ℕ :=
  if sf.1 then 0 else u8 (fmul sf.2 (F32.ofNat 255)).floor

/-- `GetPixelColor(srcPtr, format)` where `srcPtr` is byte offset `off` into
`buf`. -/
def GetPixelColor (buf : ℕ → ℕ) (off : ℤ) (format : ℤ) : Color :=
  if format = PIXELFORMAT_UNCOMPRESSED_GRAYSCALE then
    ⟨readByte buf off, readByte buf off, readByte buf off, 255⟩
  else if format = PIXELFORMAT_UNCOMPRESSED_GRAY_ALPHA then
    ⟨readByte buf off, readByte buf off, readByte buf off, readByte buf (off + 1)⟩
  else if format = PIXELFORMAT_UNCOMPRESSED_R5G6B5 then
    let p := readShort buf off
    ⟨u8 ((p >>> 11) * 255 / 31), u8 (((p >>> 5) &&& 63) * 255 / 63), u8 ((p &&& 31) * 255 / 31), 255⟩
  else if format = PIXELFORMAT_UNCOMPRESSED_R5G5B5A1 then
    let p := readShort buf off
    ⟨u8 ((p >>> 11) * 255 / 31), u8 (((p >>> 6) &&& 31) * 255 / 31), u8 ((p &&& 31) * 255 / 31),
      if p &&& 1 ≠ 0 then 255 else 0⟩
  else if format = PIXELFORMAT_UNCOMPRESSED_R4G4B4A4 then
    let p := readShort buf off
    ⟨u8 ((p >>> 12) * 255 / 15), u8 (((p >>> 8) &&& 15) * 255 / 15), u8 (((p >>> 4) &&& 15) * 255 / 15),
      u8 ((p &&& 15) * 255 / 15)⟩
  else if format = PIXELFORMAT_UNCOMPRESSED_R8G8B8A8 then
    ⟨readByte buf off, readByte buf (off + 1), readByte buf (off + 2), readByte buf (off + 3)⟩
  else if format = PIXELFORMAT_UNCOMPRESSED_R8G8B8 then
    ⟨readByte buf off, readByte buf (off + 1), readByte buf (off + 2), 255⟩
  else if format = PIXELFORMAT_UNCOMPRESSED_R32 then
    let f := f32ChannelU8 (readF32 buf off)
    ⟨f, f, f, 255⟩
  else if format = PIXELFORMAT_UNCOMPRESSED_R32G32B32 then
    ⟨f32ChannelU8 (readF32 buf off), f32ChannelU8 (readF32 buf (off + 4)),
      f32ChannelU8 (readF32 buf (off + 8)), 255⟩
  else if format = PIXELFORMAT_UNCOMPRESSED_R32G32B32A32 then
    ⟨f32ChannelU8 (readF32 buf off), f32ChannelU8 (readF32 buf (off + 4)),
      f32ChannelU8 (readF32 buf (off + 8)), f32ChannelU8 (readF32 buf (off + 12))⟩
  else ⟨0, 0, 0, 0⟩

/-- `SetPixelColor(dstPtr, color, format)`: the list of bytes written at the
pixel's byte offset (the `default` case writes nothing). -/
def SetPixelColor (color : Color) (format : ℤ) : List ℕ :=
  if format = PIXELFORMAT_UNCOMPRESSED_GRAYSCALE then
    [lumaGray color.r color.g color.b]
  else if format = PIXELFORMAT_UNCOMPRESSED_GRAY_ALPHA then
    [lumaGray color.r color.g color.b, color.a]
  else if format = PIXELFORMAT_UNCOMPRESSED_R5G6B5 then
    let r := u8 (qRound color.r 31)
    let g := u8 (qRound color.g 63)
    let b := u8 (qRound color.b 31)
    shortBytes (r <<< 11 ||| g <<< 5 ||| b)
  else if format = PIXELFORMAT_UNCOMPRESSED_R5G5B5A1 then
    let r := u8 (qRound color.r 31)
    let g := u8 (qRound color.g 31)
    let b := u8 (qRound color.b 31)
    let a : ℕ := if alphaAboveThreshold color.a then 1 else 0
    shortBytes (r <<< 11 ||| g <<< 6 ||| b <<< 1 ||| a)
  else if format = PIXELFORMAT_UNCOMPRESSED_R4G4B4A4 then
    let r := u8 (qRound color.r 15)
    let g := u8 (qRound color.g 15)
    let b := u8 (qRound color.b 15)
    let a := u8 (qRound color.a 15)
    shortBytes (r <<< 12 ||| g <<< 8 ||| b <<< 4 ||| a)
  else if format = PIXELFORMAT_UNCOMPRESSED_R8G8B8 then
    [color.r, color.g, color.b]
  else if format = PIXELFORMAT_UNCOMPRESSED_R8G8B8A8 then
    [color.r, color.g, color.b, color.a]
  else []

/-- `ColorAlphaBlend(dst, src, tint)` (the `COLORALPHABLEND_INTEGERS` path
compiled in the source).  All arithmetic is C `unsigned int`; the
`(unsigned char)` casts are `u8`. -/
def ColorAlphaBlend (dst src tint : Color) : Color :=
  let sr := u8 ((src.r * (tint.r + 1)) >>> 8)
  let sg := u8 ((src.g * (tint.g + 1)) >>> 8)
  let sb := u8 ((src.b * (tint.b + 1)) >>> 8)
  let sa := u8 ((src.a * (tint.a + 1)) >>> 8)
  if sa = 0 then dst
  else if sa = 255 then ⟨sr, sg, sb, sa⟩
  else
    let alpha := sa + 1
    let outA := u8 ((alpha * 256 + dst.a * (256 - alpha)) >>> 8)
    if 0 < outA then
      ⟨u8 (((sr * alpha * 256 + dst.r * dst.a * (256 - alpha)) / outA) >>> 8),
        u8 (((sg * alpha * 256 + dst.g * dst.a * (256 - alpha)) / outA) >>> 8),
        u8 (((sb * alpha * 256 + dst.b * dst.a * (256 - alpha)) / outA) >>> 8),
        outA⟩
    else ⟨255, 255, 255, outA⟩  -- `out` was initialized to WHITE

/-! ## Image buffers

`data` gives the byte at each offset of the owned allocation, `dataLen` its
size in bytes; `dataLen = 0` models a `NULL` data pointer.  `width`, `height`,
`mipmaps` and `format` are C `int` fields.  Freshly `malloc`ed memory is
modelled as zero bytes (its contents are unspecified in C; the verified
properties depend only on which bytes are subsequently written). -/

structure Image where
  data : ℕ → ℕ
  dataLen : ℕ
  width : ℤ
  height : ℤ
  mipmaps : ℤ
  format : ℤ

/-- `Rectangle {x, y, width, height}`.  The C fields are `float`; every
verified scenario passes integer values, on which the C float arithmetic and
the `(int)` casts in the source are exact, so the fields are embedded as `ℤ`. -/
structure Rect where
  x : ℤ
  y : ℤ
  width : ℤ
  height : ℤ

/-- `memcpy(dst + dstOff, src + srcOff, n)` between byte buffers.  A negative
`n` is undefined behaviour in C (a huge `size_t`); it is modelled as copying
nothing. -/
def copyBytes (dst : ℕ → ℕ) (dstOff : ℤ) (src : ℕ → ℕ) (srcOff n : ℤ) : ℕ → ℕ :=
  fun i => if dstOff ≤ (i : ℤ) ∧ (i : ℤ) < dstOff + n then src (srcOff + (i : ℤ) - dstOff).toNat else dst i

/-- Store the byte list `vs` at byte offset `off`. -/
def writeBytes (dst : ℕ → ℕ) (off : ℤ) (vs : List ℕ) : ℕ → ℕ :=
  fun i => if off ≤ (i : ℤ) ∧ (i : ℤ) < off + vs.length then vs.getD ((i : ℤ) - off).toNat 0 else dst i

/-- `ImageDrawPixel(dst, x, y, color)`.  The per-format stores inline exactly
the computations of `SetPixelColor` (the C source spells them out twice); the
typed array stores (`unsigned short*`, `float*`) are little-endian byte
stores at the corresponding byte offset. -/
def ImageDrawPixel (dst : Image) (x y : ℤ) (color : Color) : Image :=
  if dst.dataLen = 0 ∨ x < 0 ∨ dst.width ≤ x ∨ y < 0 ∨ dst.height ≤ y then dst
  else if dst.format = PIXELFORMAT_UNCOMPRESSED_GRAYSCALE then
    { dst with data := writeBytes dst.data (y * dst.width + x) [lumaGray color.r color.g color.b] }
  else if dst.format = PIXELFORMAT_UNCOMPRESSED_GRAY_ALPHA then
    let bs := [lumaGray color.r color.g color.b, color.a]
    { dst with data := writeBytes dst.data ((y * dst.width + x) * 2) bs }
  else if dst.format = PIXELFORMAT_UNCOMPRESSED_R5G6B5 then
    let bs := shortBytes (u8 (qRound color.r 31) <<< 11 ||| u8 (qRound color.g 63) <<< 5 |||
      u8 (qRound color.b 31))
    { dst with data := writeBytes dst.data ((y * dst.width + x) * 2) bs }
  else if dst.format = PIXELFORMAT_UNCOMPRESSED_R5G5B5A1 then
    let bs := shortBytes (u8 (qRound color.r 31) <<< 11 ||| u8 (qRound color.g 31) <<< 6 |||
      u8 (qRound color.b 31) <<< 1 ||| (if alphaAboveThreshold color.a then 1 else 0))
    { dst with data := writeBytes dst.data ((y * dst.width + x) * 2) bs }
  else if dst.format = PIXELFORMAT_UNCOMPRESSED_R4G4B4A4 then
    let bs := shortBytes (u8 (qRound color.r 15) <<< 12 ||| u8 (qRound color.g 15) <<< 8 |||
      u8 (qRound color.b 15) <<< 4 ||| u8 (qRound color.a 15))
    { dst with data := writeBytes dst.data ((y * dst.width + x) * 2) bs }
  else if dst.format = PIXELFORMAT_UNCOMPRESSED_R8G8B8 then
    { dst with data := writeBytes dst.data ((y * dst.width + x) * 3) [color.r, color.g, color.b] }
  else if dst.format = PIXELFORMAT_UNCOMPRESSED_R8G8B8A8 then
    let bs := [color.r, color.g, color.b, color.a]
    { dst with data := writeBytes dst.data ((y * dst.width + x) * 4) bs }
  else if dst.format = PIXELFORMAT_UNCOMPRESSED_R32 then
    let bs := f32Bytes (fadd (fadd (fmul (fdivNat (F32.ofNat color.r) 255) w299)
      (fmul (fdivNat (F32.ofNat color.g) 255) w587)) (fmul (fdivNat (F32.ofNat color.b) 255) w114))
    { dst with data := writeBytes dst.data ((y * dst.width + x) * 4) bs }
  else if dst.format = PIXELFORMAT_UNCOMPRESSED_R32G32B32 then
    let bs := f32Bytes (fdivNat (F32.ofNat color.r) 255) ++ f32Bytes (fdivNat (F32.ofNat color.g) 255) ++
      f32Bytes (fdivNat (F32.ofNat color.b) 255)
    { dst with data := writeBytes dst.data ((y * dst.width + x) * 12) bs }
  else if dst.format = PIXELFORMAT_UNCOMPRESSED_R32G32B32A32 then
    let bs := f32Bytes (fdivNat (F32.ofNat color.r) 255) ++ f32Bytes (fdivNat (F32.ofNat color.g) 255) ++
      f32Bytes (fdivNat (F32.ofNat color.b) 255) ++ f32Bytes (fdivNat (F32.ofNat color.a) 255)
    { dst with data := writeBytes dst.data ((y * dst.width + x) * 16) bs }
  else dst

/-- The inner loop of `ImageDrawRectangleRec`: after `ImageDrawPixel` wrote the
first pixel of the row at byte offset `base`, iteration `x` (1-based) does
`memcpy(pSrcPixel + x*bytesPerPixel, pSrcPixel, bytesPerPixel)`.  `n` counts
completed iterations. -/
def repeatPixelRow (base bpp : ℤ) (data : ℕ → ℕ) : ℕ → (ℕ → ℕ)
  | 0 => data
  | n + 1 =>
    let d := repeatPixelRow base bpp data n
    copyBytes d (base + ((n : ℤ) + 1) * bpp) d base bpp

/-- One row of `ImageDrawRectangleRec`: draw the first pixel, then repeat its
already-encoded bytes across the row. -/
def drawRectRow (dst : Image) (sx y w bpp : ℤ) (color : Color) : Image :=
  let d := ImageDrawPixel dst sx y color
  let base := (y * d.width + sx) * bpp
  { d with data := repeatPixelRow base bpp d.data (w - 1).toNat }

/-- The row loop of `ImageDrawRectangleRec` (`for (y = sy; y < ey; y++)`);
`n` counts completed rows. -/
def drawRectRows (dst : Image) (sx sy w bpp : ℤ) (color : Color) : ℕ → Image
  | 0 => dst
  | n + 1 => drawRectRow (drawRectRows dst sx sy w bpp color n) sx (sy + n) w bpp color

/-- `ImageDrawRectangleRec(dst, rec, color)`.  NOTE the source's clamp for a
negative origin is `rec.width -= rec.x` / `rec.height -= rec.y` (it enlarges
the rectangle), and there is no clamp against the right/bottom edges. -/
def ImageDrawRectangleRec (dst : Image) (rec : Rect) (color : Color) : Image :=
  if dst.dataLen = 0 ∨ dst.width = 0 ∨ dst.height = 0 then dst
  else
    let r1 := if rec.x < 0 then { rec with width := rec.width - rec.x, x := 0 } else rec
    let r2 := if r1.y < 0 then { r1 with height := r1.height - r1.y, y := 0 } else r1
    let r3 := if r2.width < 0 then { r2 with width := 0 } else r2
    let r4 := if r3.height < 0 then { r3 with height := 0 } else r3
    let sy := r4.y
    let ey := sy + r4.height
    let sx := r4.x
    let bpp := GetPixelDataSize 1 1 dst.format
    drawRectRows dst sx sy r4.width bpp color (ey - sy).toNat

/-- The row loop of `ImageCrop` (`memcpy` of one cropped row per iteration);
`n` counts completed rows, `acc` is the freshly allocated destination. -/
def cropRows (src : ℕ → ℕ) (srcW cx cy w bpp : ℤ) (acc : ℕ → ℕ) : ℕ → (ℕ → ℕ)
  | 0 => acc
  | n + 1 =>
    copyBytes (cropRows src srcW cx cy w bpp acc n) ((n : ℤ) * (w * bpp)) src
      (((cy + n) * srcW + cx) * bpp) (w * bpp)

/-- `ImageCrop(image, crop)`. -/
def ImageCrop (image : Image) (crop : Rect) : Image :=
  if image.dataLen = 0 ∨ image.width = 0 ∨ image.height = 0 then image
  else
    let c1 := if crop.x < 0 then { crop with width := crop.width + crop.x, x := 0 } else crop
    let c2 := if c1.y < 0 then { c1 with height := c1.height + c1.y, y := 0 } else c1
    let c3 := if image.width < c2.x + c2.width then { c2 with width := image.width - c2.x } else c2
    let c4 := if image.height < c3.y + c3.height then { c3 with height := image.height - c3.y } else c3
    if image.width < c4.x ∨ image.height < c4.y then image
    else if PIXELFORMAT_COMPRESSED_DXT1_RGB ≤ image.format then image
    else
      let bpp := GetPixelDataSize 1 1 image.format
      { image with
        data := cropRows image.data image.width c4.x c4.y c4.width bpp (fun _ => 0) c4.height.toNat,
        dataLen := (c4.width * c4.height * bpp).toNat,
        width := c4.width,
        height := c4.height }

/-- The row loop of `ImageResizeCanvas`; row `n` copies `srcW*bpp` bytes to
destination byte offset `dstOff0 + n*newW*bpp`. -/
def canvasRows (src : ℕ → ℕ) (srcWpx srcX srcY bpp newW srcW dstOff0 : ℤ) (acc : ℕ → ℕ) :
    ℕ → (ℕ → ℕ)
  | 0 => acc
  | n + 1 =>
    copyBytes (canvasRows src srcWpx srcX srcY bpp newW srcW dstOff0 acc n)
      (dstOff0 + (n : ℤ) * (newW * bpp)) src ((((n : ℤ) + srcY) * srcWpx + srcX) * bpp) (srcW * bpp)

/-- `ImageResizeCanvas(image, newWidth, newHeight, offsetX, offsetY, fill)`.
The destination is `RL_CALLOC`ed (zero-initialized); the `fill` color is never
used by the source (`// TODO: Fill resized canvas with fill color`). -/
def ImageResizeCanvas (image : Image) (newWidth newHeight offsetX offsetY : ℤ) (fill : Color) :
    Image :=
  if image.dataLen = 0 ∨ image.width = 0 ∨ image.height = 0 then image
  else if PIXELFORMAT_COMPRESSED_DXT1_RGB ≤ image.format then image
  else if newWidth ≠ image.width ∨ newHeight ≠ image.height then
    let srcX : ℤ := if offsetX < 0 then -offsetX else 0
    let srcW0 : ℤ :=
      if offsetX < 0 then image.width + offsetX
      else if newWidth < offsetX + image.width then newWidth - offsetX else image.width
    let dstX : ℤ := if offsetX < 0 then 0 else offsetX
    let srcY : ℤ := if offsetY < 0 then -offsetY else 0
    let srcH0 : ℤ :=
      if offsetY < 0 then image.height + offsetY
      else if newHeight < offsetY + image.height then newHeight - offsetY else image.height
    let dstY : ℤ := if offsetY < 0 then 0 else offsetY
    let srcW := if newWidth < srcW0 then newWidth else srcW0
    let srcH := if newHeight < srcH0 then newHeight else srcH0
    let bpp := GetPixelDataSize 1 1 image.format
    let dstOff0 := (dstY * newWidth + dstX) * bpp
    { image with
      data := canvasRows image.data image.width srcX srcY bpp newWidth srcW dstOff0
        (fun _ => 0) srcH.toNat,
      dataLen := (newWidth * newHeight * bpp).toNat,
      width := newWidth,
      height := newHeight }
  else image

/-! ## Format conversion -/

/-- `Vector4` of normalized floats. -/
structure NVec4 where
  x : F32
  y : F32
  z : F32
  w : F32

/-- Magnitude of a stored float, used where the source reads a `float` it
previously stored; negative bit patterns do not occur in the verified
scenarios and are modelled as zero. -/
def readF32mag (buf : ℕ → ℕ) (off : ℤ) : F32 :=
  let sf := readF32 buf off
  if sf.1 then ⟨0, 0⟩ else sf.2

/-- `LoadImageDataNormalized(image)`: pixel `i` of the normalized array.
NOTE, embedded faithfully from the source: in the `R32` case the running
index `k` is never advanced, so every pixel reads the float at index 0. -/
def LoadImageDataNormalized (image : Image) (i : ℕ) : NVec4 :=
  let fmt := image.format
  if fmt = PIXELFORMAT_UNCOMPRESSED_GRAYSCALE then
    let v := fdivNat (F32.ofNat (image.data i)) 255
    ⟨v, v, v, F32.ofNat 1⟩
  else if fmt = PIXELFORMAT_UNCOMPRESSED_GRAY_ALPHA then
    let v := fdivNat (F32.ofNat (image.data (2 * i))) 255
    ⟨v, v, v, fdivNat (F32.ofNat (image.data (2 * i + 1))) 255⟩
  else if fmt = PIXELFORMAT_UNCOMPRESSED_R5G5B5A1 then
    let p := readShort image.data (2 * i)
    ⟨fmul (F32.ofNat ((p &&& 63488) >>> 11)) (fdivNat (F32.ofNat 1) 31),
      fmul (F32.ofNat ((p &&& 1984) >>> 6)) (fdivNat (F32.ofNat 1) 31),
      fmul (F32.ofNat ((p &&& 62) >>> 1)) (fdivNat (F32.ofNat 1) 31),
      if p &&& 1 = 0 then ⟨0, 0⟩ else F32.ofNat 1⟩
  else if fmt = PIXELFORMAT_UNCOMPRESSED_R5G6B5 then
    let p := readShort image.data (2 * i)
    ⟨fmul (F32.ofNat ((p &&& 63488) >>> 11)) (fdivNat (F32.ofNat 1) 31),
      fmul (F32.ofNat ((p &&& 2016) >>> 5)) (fdivNat (F32.ofNat 1) 63),
      fmul (F32.ofNat (p &&& 31)) (fdivNat (F32.ofNat 1) 31),
      F32.ofNat 1⟩
  else if fmt = PIXELFORMAT_UNCOMPRESSED_R4G4B4A4 then
    let p := readShort image.data (2 * i)
    ⟨fmul (F32.ofNat ((p &&& 61440) >>> 12)) (fdivNat (F32.ofNat 1) 15),
      fmul (F32.ofNat ((p &&& 3840) >>> 8)) (fdivNat (F32.ofNat 1) 15),
      fmul (F32.ofNat ((p &&& 240) >>> 4)) (fdivNat (F32.ofNat 1) 15),
      fmul (F32.ofNat (p &&& 15)) (fdivNat (F32.ofNat 1) 15)⟩
  else if fmt = PIXELFORMAT_UNCOMPRESSED_R8G8B8A8 then
    ⟨fdivNat (F32.ofNat (image.data (4 * i))) 255, fdivNat (F32.ofNat (image.data (4 * i + 1))) 255,
      fdivNat (F32.ofNat (image.data (4 * i + 2))) 255, fdivNat (F32.ofNat (image.data (4 * i + 3))) 255⟩
  else if fmt = PIXELFORMAT_UNCOMPRESSED_R8G8B8 then
    ⟨fdivNat (F32.ofNat (image.data (3 * i))) 255, fdivNat (F32.ofNat (image.data (3 * i + 1))) 255,
      fdivNat (F32.ofNat (image.data (3 * i + 2))) 255, F32.ofNat 1⟩
  else if fmt = PIXELFORMAT_UNCOMPRESSED_R32 then
    ⟨readF32mag image.data 0, ⟨0, 0⟩, ⟨0, 0⟩, F32.ofNat 1⟩
  else if fmt = PIXELFORMAT_UNCOMPRESSED_R32G32B32 then
    ⟨readF32mag image.data (12 * i), readF32mag image.data (12 * i + 4),
      readF32mag image.data (12 * i + 8), F32.ofNat 1⟩
  else if fmt = PIXELFORMAT_UNCOMPRESSED_R32G32B32A32 then
    ⟨readF32mag image.data (16 * i), readF32mag image.data (16 * i + 4),
      readF32mag image.data (16 * i + 8), readF32mag image.data (16 * i + 12)⟩
  else ⟨⟨0, 0⟩, ⟨0, 0⟩, ⟨0, 0⟩, ⟨0, 0⟩⟩

/-- Allocation size, in bytes, of the per-target-format `RL_MALLOC` in
`ImageFormat` (`default` leaves the data pointer `NULL`, hence 0). -/
def imageFormatLen (newFormat : ℤ) (wh : ℕ) : ℕ :=
  if newFormat = PIXELFORMAT_UNCOMPRESSED_GRAYSCALE then wh
  else if newFormat = PIXELFORMAT_UNCOMPRESSED_GRAY_ALPHA then 2 * wh
  else if newFormat = PIXELFORMAT_UNCOMPRESSED_R5G6B5 then 2 * wh
  else if newFormat = PIXELFORMAT_UNCOMPRESSED_R8G8B8 then 3 * wh
  else if newFormat = PIXELFORMAT_UNCOMPRESSED_R5G5B5A1 then 2 * wh
  else if newFormat = PIXELFORMAT_UNCOMPRESSED_R4G4B4A4 then 2 * wh
  else if newFormat = PIXELFORMAT_UNCOMPRESSED_R8G8B8A8 then 4 * wh
  else if newFormat = PIXELFORMAT_UNCOMPRESSED_R32 then 4 * wh
  else if newFormat = PIXELFORMAT_UNCOMPRESSED_R32G32B32 then 12 * wh
  else if newFormat = PIXELFORMAT_UNCOMPRESSED_R32G32B32A32 then 16 * wh
  else 0

/-- Byte `j` of the buffer produced by `ImageFormat`'s per-target re-encode
loops, from the normalized pixels `px`. -/
def imageFormatData (px : ℕ → NVec4) (newFormat : ℤ) (j : ℕ) : ℕ :=
  if newFormat = PIXELFORMAT_UNCOMPRESSED_GRAYSCALE then
    lumaGrayF (px j).x (px j).y (px j).z
  else if newFormat = PIXELFORMAT_UNCOMPRESSED_GRAY_ALPHA then
    if j % 2 = 0 then lumaGrayF (px (j / 2)).x (px (j / 2)).y (px (j / 2)).z
    else (fmul (px (j / 2)).w (F32.ofNat 255)).floor
  else if newFormat = PIXELFORMAT_UNCOMPRESSED_R5G6B5 then
    let q := px (j / 2)
    let s := u8 (fmul q.x (F32.ofNat 31)).roundHalf <<< 11 |||
      u8 (fmul q.y (F32.ofNat 63)).roundHalf <<< 5 ||| u8 (fmul q.z (F32.ofNat 31)).roundHalf
    (shortBytes s).getD (j % 2) 0
  else if newFormat = PIXELFORMAT_UNCOMPRESSED_R8G8B8 then
    let q := px (j / 3)
    (fmul (if j % 3 = 0 then q.x else if j % 3 = 1 then q.y else q.z) (F32.ofNat 255)).floor
  else if newFormat = PIXELFORMAT_UNCOMPRESSED_R5G5B5A1 then
    let q := px (j / 2)
    let a : ℕ := if F32.lt (fdivNat (F32.ofNat R5G5B5A1_ALPHA_THRESHOLD) 255) q.w then 1 else 0
    let s := u8 (fmul q.x (F32.ofNat 31)).roundHalf <<< 11 |||
      u8 (fmul q.y (F32.ofNat 31)).roundHalf <<< 6 ||| u8 (fmul q.z (F32.ofNat 31)).roundHalf <<< 1 ||| a
    (shortBytes s).getD (j % 2) 0
  else if newFormat = PIXELFORMAT_UNCOMPRESSED_R4G4B4A4 then
    let q := px (j / 2)
    let s := u8 (fmul q.x (F32.ofNat 15)).roundHalf <<< 12 |||
      u8 (fmul q.y (F32.ofNat 15)).roundHalf <<< 8 ||| u8 (fmul q.z (F32.ofNat 15)).roundHalf <<< 4 |||
      u8 (fmul q.w (F32.ofNat 15)).roundHalf
    (shortBytes s).getD (j % 2) 0
  else if newFormat = PIXELFORMAT_UNCOMPRESSED_R8G8B8A8 then
    let q := px (j / 4)
    (fmul (if j % 4 = 0 then q.x else if j % 4 = 1 then q.y else if j % 4 = 2 then q.z else q.w)
      (F32.ofNat 255)).floor
  else if newFormat = PIXELFORMAT_UNCOMPRESSED_R32 then
    let q := px (j / 4)
    (f32Bytes (fadd (fadd (fmul q.x w299) (fmul q.y w587)) (fmul q.z w114))).getD (j % 4) 0
  else if newFormat = PIXELFORMAT_UNCOMPRESSED_R32G32B32 then
    let q := px (j / 12)
    (f32Bytes (if j % 12 / 4 = 0 then q.x else if j % 12 / 4 = 1 then q.y else q.z)).getD (j % 4) 0
  else if newFormat = PIXELFORMAT_UNCOMPRESSED_R32G32B32A32 then
    let q := px (j / 16)
    (f32Bytes (if j % 16 / 4 = 0 then q.x else if j % 16 / 4 = 1 then q.y
      else if j % 16 / 4 = 2 then q.z else q.w)).getD (j % 4) 0
  else 0

/-- `ImageFormat(image, newFormat)`. -/
def ImageFormat (image : Image) (newFormat : ℤ) : Image :=
  if image.dataLen = 0 ∨ image.width = 0 ∨ image.height = 0 then image
  else if newFormat ≠ 0 ∧ image.format ≠ newFormat then
    if image.format < PIXELFORMAT_COMPRESSED_DXT1_RGB ∧ newFormat < PIXELFORMAT_COMPRESSED_DXT1_RGB then
      let px := LoadImageDataNormalized image
      let wh := (image.width * image.height).toNat
      let len := imageFormatLen newFormat wh
      { image with
        data := fun j => if j < len then imageFormatData px newFormat j else 0,
        dataLen := len,
        format := newFormat,
        mipmaps := if 1 < image.mipmaps then 1 else image.mipmaps }
    else image
  else image

/-! ## Compositing -/

/-- `LoadImageColors(image)`: pixel `i` of the returned RGBA array.  Embedded
faithfully, including this decoder's integer quirks: `(255/31)`, `(255/63)`
and `(255/15)` are C integer divisions (8, 4 and 17) applied with an exact
float multiply; the `R32` case never advances its index `k`; the
`R32G32B32A32` case reads the same float for all four channels. -/
def LoadImageColorsPixel (image : Image) (i : ℕ) : Color :=
  let fmt := image.format
  if fmt = PIXELFORMAT_UNCOMPRESSED_GRAYSCALE then
    ⟨image.data i, image.data i, image.data i, 255⟩
  else if fmt = PIXELFORMAT_UNCOMPRESSED_GRAY_ALPHA then
    ⟨image.data (2 * i), image.data (2 * i), image.data (2 * i), image.data (2 * i + 1)⟩
  else if fmt = PIXELFORMAT_UNCOMPRESSED_R5G5B5A1 then
    let p := readShort image.data (2 * i)
    ⟨u8 (((p &&& 63488) >>> 11) * (255 / 31)), u8 (((p &&& 1984) >>> 6) * (255 / 31)),
      u8 (((p &&& 62) >>> 1) * (255 / 31)), u8 ((p &&& 1) * 255)⟩
  else if fmt = PIXELFORMAT_UNCOMPRESSED_R5G6B5 then
    let p := readShort image.data (2 * i)
    ⟨u8 (((p &&& 63488) >>> 11) * (255 / 31)), u8 (((p &&& 2016) >>> 5) * (255 / 63)),
      u8 ((p &&& 31) * (255 / 31)), 255⟩
  else if fmt = PIXELFORMAT_UNCOMPRESSED_R4G4B4A4 then
    let p := readShort image.data (2 * i)
    ⟨u8 (((p &&& 61440) >>> 12) * (255 / 15)), u8 (((p &&& 3840) >>> 8) * (255 / 15)),
      u8 (((p &&& 240) >>> 4) * (255 / 15)), u8 ((p &&& 15) * (255 / 15))⟩
  else if fmt = PIXELFORMAT_UNCOMPRESSED_R8G8B8A8 then
    ⟨image.data (4 * i), image.data (4 * i + 1), image.data (4 * i + 2), image.data (4 * i + 3)⟩
  else if fmt = PIXELFORMAT_UNCOMPRESSED_R8G8B8 then
    ⟨image.data (3 * i), image.data (3 * i + 1), image.data (3 * i + 2), 255⟩
  else if fmt = PIXELFORMAT_UNCOMPRESSED_R32 then
    ⟨f32ChannelU8 (readF32 image.data 0), 0, 0, 255⟩
  else if fmt = PIXELFORMAT_UNCOMPRESSED_R32G32B32 then
    ⟨f32ChannelU8 (readF32 image.data (12 * i)), f32ChannelU8 (readF32 image.data (12 * i + 4)),
      f32ChannelU8 (readF32 image.data (12 * i + 8)), 255⟩
  else if fmt = PIXELFORMAT_UNCOMPRESSED_R32G32B32A32 then
    ⟨f32ChannelU8 (readF32 image.data (16 * i)), f32ChannelU8 (readF32 image.data (16 * i)),
      f32ChannelU8 (readF32 image.data (16 * i)), f32ChannelU8 (readF32 image.data (16 * i))⟩
  else ⟨0, 0, 0, 0⟩

/-- The `Color*` result of `LoadImageColors` viewed as a byte buffer (4 bytes
per pixel); a `NULL` result (zero-sized image) and the uninitialized buffer of
the warned compressed case are modelled as zeros. -/
def LoadImageColorsBytes (image : Image) (j : ℕ) : ℕ :=
  if image.width = 0 ∨ image.height = 0 then 0
  else if PIXELFORMAT_COMPRESSED_DXT1_RGB ≤ image.format then 0
  else
    let c := LoadImageColorsPixel image (j / 4)
    if j % 4 = 0 then c.r else if j % 4 = 1 then c.g else if j % 4 = 2 then c.b else c.a

/-- The row loop of `ImageFromImage`. -/
def fromImageRows (src : ℕ → ℕ) (srcW rx ry w bpp : ℤ) (acc : ℕ → ℕ) : ℕ → (ℕ → ℕ)
  | 0 => acc
  | n + 1 =>
    copyBytes (fromImageRows src srcW rx ry w bpp acc n) ((n : ℤ) * w * bpp) src
      ((((n : ℤ) + ry) * srcW + rx) * bpp) (w * bpp)

/-- `ImageFromImage(image, rec)` (no clamping; `RL_CALLOC`ed destination). -/
def ImageFromImage (image : Image) (rec : Rect) : Image :=
  let bpp := GetPixelDataSize 1 1 image.format
  { data := fromImageRows image.data image.width rec.x rec.y rec.width bpp (fun _ => 0) rec.height.toNat,
    dataLen := (rec.width * rec.height * bpp).toNat,
    width := rec.width,
    height := rec.height,
    mipmaps := 1,
    format := image.format }

/-- The external stb image resampler (spec §6 collaborator, not part of this
core): `resample srcBytes srcW srcH dstW dstH channels` returns the resampled
destination bytes.  Operations that delegate to it are verified for every
resampler. -/
def Resampler : Type := (ℕ → ℕ) → ℤ → ℤ → ℤ → ℤ → ℤ → (ℕ → ℕ)

/-- `ImageResize(image, newWidth, newHeight)`, parametrized by the external
resampler `stbir_resize_uint8`. -/
def ImageResize (resample : Resampler) (image : Image) (newWidth newHeight : ℤ) : Image :=
  if image.dataLen = 0 ∨ image.width = 0 ∨ image.height = 0 then image
  else if image.format = PIXELFORMAT_UNCOMPRESSED_GRAYSCALE ∨
      image.format = PIXELFORMAT_UNCOMPRESSED_GRAY_ALPHA ∨
      image.format = PIXELFORMAT_UNCOMPRESSED_R8G8B8 ∨
      image.format = PIXELFORMAT_UNCOMPRESSED_R8G8B8A8 then
    let bpp := GetPixelDataSize 1 1 image.format
    let channels : ℤ :=
      if image.format = PIXELFORMAT_UNCOMPRESSED_GRAYSCALE then 1
      else if image.format = PIXELFORMAT_UNCOMPRESSED_GRAY_ALPHA then 2
      else if image.format = PIXELFORMAT_UNCOMPRESSED_R8G8B8 then 3 else 4
    { image with
      data := resample image.data image.width image.height newWidth newHeight channels,
      dataLen := (newWidth * newHeight * bpp).toNat,
      width := newWidth,
      height := newHeight }
  else
    let out := resample (LoadImageColorsBytes image) image.width image.height newWidth newHeight 4
    ImageFormat
      { image with
        data := out,
        dataLen := (newWidth * newHeight * 4).toNat,
        width := newWidth,
        height := newHeight,
        format := PIXELFORMAT_UNCOMPRESSED_R8G8B8A8 }
      image.format

/-- The per-pixel inner loop of `ImageDraw`'s blit: iteration `n` processes
destination pixel `x = n` of the row. -/
def blitPixels (srcBuf : ℕ → ℕ) (srcFmt dstFmt : ℤ) (tint : Color) (blendRequired : Bool)
    (bppSrc bppDst pSrc0 pDst0 : ℤ) (dstBuf : ℕ → ℕ) : ℕ → (ℕ → ℕ)
  | 0 => dstBuf
  | n + 1 =>
    let d := blitPixels srcBuf srcFmt dstFmt tint blendRequired bppSrc bppDst pSrc0 pDst0 dstBuf n
    let pSrc := pSrc0 + (n : ℤ) * bppSrc
    let pDst := pDst0 + (n : ℤ) * bppDst
    let colSrc := GetPixelColor srcBuf pSrc srcFmt
    let colDst := GetPixelColor d pDst dstFmt
    let blend := if blendRequired then ColorAlphaBlend colDst colSrc tint else colSrc
    writeBytes d pDst (SetPixelColor blend dstFmt)

/-- The row loop of `ImageDraw`'s blit; row `y` either does the fast direct
`memcpy` or runs the per-pixel loop. -/
def blitRows (srcBuf : ℕ → ℕ) (srcFmt dstFmt : ℤ) (tint : Color) (blendRequired fastRow : Bool)
    (bppSrc bppDst strideSrc strideDst pSrcBase pDstBase widthPx : ℤ) (dstBuf : ℕ → ℕ) :
    ℕ → (ℕ → ℕ)
  | 0 => dstBuf
  | y + 1 =>
    let d := blitRows srcBuf srcFmt dstFmt tint blendRequired fastRow bppSrc bppDst strideSrc
      strideDst pSrcBase pDstBase widthPx dstBuf y
    let pSrc := pSrcBase + (y : ℤ) * strideSrc
    let pDst := pDstBase + (y : ℤ) * strideDst
    if fastRow then copyBytes d pDst srcBuf pSrc (widthPx * bppSrc)
    else blitPixels srcBuf srcFmt dstFmt tint blendRequired bppSrc bppDst pSrc pDst d widthPx.toNat

/-- `ImageDraw(dst, src, srcRec, dstRec, tint)`, parametrized by the external
resampler used when `srcRec` and `dstRec` sizes differ. -/
def ImageDraw (resample : Resampler) (dst src : Image) (srcRec dstRec : Rect) (tint : Color) :
    Image :=
  if dst.dataLen = 0 ∨ dst.width = 0 ∨ dst.height = 0 ∨
      src.dataLen = 0 ∨ src.width = 0 ∨ src.height = 0 then dst
  else if PIXELFORMAT_COMPRESSED_DXT1_RGB ≤ dst.format then dst
  else
    let s1 := if srcRec.x < 0 then { srcRec with width := srcRec.width + srcRec.x, x := 0 } else srcRec
    let s2 := if s1.y < 0 then { s1 with height := s1.height + s1.y, y := 0 } else s1
    let s3 := if src.width < s2.x + s2.width then { s2 with width := src.width - s2.x } else s2
    let s4 := if src.height < s3.y + s3.height then { s3 with height := src.height - s3.y } else s3
    let needMod := s4.width ≠ dstRec.width ∨ s4.height ≠ dstRec.height
    let srcUse :=
      if needMod then ImageResize resample (ImageFromImage src s4) dstRec.width dstRec.height else src
    let s5 : Rect := if needMod then ⟨0, 0, srcUse.width, srcUse.height⟩ else s4
    let s6 :=
      if dstRec.x < 0 then { s5 with x := -dstRec.x, width := s5.width + dstRec.x }
      else if dst.width < dstRec.x + s5.width then { s5 with width := dst.width - dstRec.x } else s5
    let d1 := if dstRec.x < 0 then { dstRec with x := 0 } else dstRec
    let s7 :=
      if dstRec.y < 0 then { s6 with y := -dstRec.y, height := s6.height + dstRec.y }
      else if dst.height < dstRec.y + s6.height then { s6 with height := dst.height - dstRec.y } else s6
    let d2 := if dstRec.y < 0 then { d1 with y := 0 } else d1
    let s8 := if dst.width < s7.width then { s7 with width := dst.width } else s7
    let s9 := if dst.height < s8.height then { s8 with height := dst.height } else s8
    let blendRequired : Bool :=
      if tint.a = 255 ∧ (srcUse.format = PIXELFORMAT_UNCOMPRESSED_GRAYSCALE ∨
        srcUse.format = PIXELFORMAT_UNCOMPRESSED_R8G8B8 ∨
        srcUse.format = PIXELFORMAT_UNCOMPRESSED_R5G6B5) then false else true
    let strideDst := GetPixelDataSize dst.width 1 dst.format
    let bytesPerPixelDst := Int.tdiv strideDst dst.width
    let strideSrc := GetPixelDataSize srcUse.width 1 srcUse.format
    let bytesPerPixelSrc := Int.tdiv strideSrc srcUse.width
    let pSrcBase := (s9.y * srcUse.width + s9.x) * bytesPerPixelSrc
    let pDstBase := (d2.y * dst.width + d2.x) * bytesPerPixelDst
    let fastRow : Bool := if blendRequired = false ∧ srcUse.format = dst.format then true else false
    { dst with
      data := blitRows srcUse.data srcUse.format dst.format tint blendRequired fastRow
        bytesPerPixelSrc bytesPerPixelDst strideSrc strideDst pSrcBase pDstBase s9.width
        dst.data s9.height.toNat }

/-- Modelled from the spec: §8 requires comparing the compositor's fast path
with its per-pixel slow path "forced through both code paths".  This variant
is `ImageDraw` with the row-level fast path disabled (`fastRow` forced off),
so every pixel goes through decode/blend/encode; everything else is
identical. -/
def ImageDrawSlow (resample : Resampler) (dst src : Image) (srcRec dstRec : Rect) (tint : Color) :
    Image :=
  if dst.dataLen = 0 ∨ dst.width = 0 ∨ dst.height = 0 ∨
      src.dataLen = 0 ∨ src.width = 0 ∨ src.height = 0 then dst
  else if PIXELFORMAT_COMPRESSED_DXT1_RGB ≤ dst.format then dst
  else
    let s1 := if srcRec.x < 0 then { srcRec with width := srcRec.width + srcRec.x, x := 0 } else srcRec
    let s2 := if s1.y < 0 then { s1 with height := s1.height + s1.y, y := 0 } else s1
    let s3 := if src.width < s2.x + s2.width then { s2 with width := src.width - s2.x } else s2
    let s4 := if src.height < s3.y + s3.height then { s3 with height := src.height - s3.y } else s3
    let needMod := s4.width ≠ dstRec.width ∨ s4.height ≠ dstRec.height
    let srcUse :=
      if needMod then ImageResize resample (ImageFromImage src s4) dstRec.width dstRec.height else src
    let s5 : Rect := if needMod then ⟨0, 0, srcUse.width, srcUse.height⟩ else s4
    let s6 :=
      if dstRec.x < 0 then { s5 with x := -dstRec.x, width := s5.width + dstRec.x }
      else if dst.width < dstRec.x + s5.width then { s5 with width := dst.width - dstRec.x } else s5
    let d1 := if dstRec.x < 0 then { dstRec with x := 0 } else dstRec
    let s7 :=
      if dstRec.y < 0 then { s6 with y := -dstRec.y, height := s6.height + dstRec.y }
      else if dst.height < dstRec.y + s6.height then { s6 with height := dst.height - dstRec.y } else s6
    let d2 := if dstRec.y < 0 then { d1 with y := 0 } else d1
    let s8 := if dst.width < s7.width then { s7 with width := dst.width } else s7
    let s9 := if dst.height < s8.height then { s8 with height := dst.height } else s8
    let blendRequired : Bool :=
      if tint.a = 255 ∧ (srcUse.format = PIXELFORMAT_UNCOMPRESSED_GRAYSCALE ∨
        srcUse.format = PIXELFORMAT_UNCOMPRESSED_R8G8B8 ∨
        srcUse.format = PIXELFORMAT_UNCOMPRESSED_R5G6B5) then false else true
    let strideDst := GetPixelDataSize dst.width 1 dst.format
    let bytesPerPixelDst := Int.tdiv strideDst dst.width
    let strideSrc := GetPixelDataSize srcUse.width 1 srcUse.format
    let bytesPerPixelSrc := Int.tdiv strideSrc srcUse.width
    let pSrcBase := (s9.y * srcUse.width + s9.x) * bytesPerPixelSrc
    let pDstBase := (d2.y * dst.width + d2.x) * bytesPerPixelDst
    { dst with
      data := blitRows srcUse.data srcUse.format dst.format tint blendRequired false
        bytesPerPixelSrc bytesPerPixelDst strideSrc strideDst pSrcBase pDstBase s9.width
        dst.data s9.height.toNat }

/-! ## Definitions following the spec's words (for refinement comparisons) -/

/-- Follows the spec's words (claim C1) literally: tint each source channel by
`channel*(tintChannel+1) >> 8`, then the exact integer over operator, with no
8-bit truncation of the blended channel results. -/
def specBlendOver (dst src tint : Color) : Color :=
  let sr := (src.r * (tint.r + 1)) >>> 8
  let sg := (src.g * (tint.g + 1)) >>> 8
  let sb := (src.b * (tint.b + 1)) >>> 8
  let sa := (src.a * (tint.a + 1)) >>> 8
  if sa = 0 then dst
  else if sa = 255 then ⟨sr, sg, sb, sa⟩
  else
    let srcA1 := sa + 1
    let outA := (srcA1 * 256 + dst.a * (256 - srcA1)) >>> 8
    ⟨((sr * srcA1 * 256 + dst.r * dst.a * (256 - srcA1)) / outA) >>> 8,
      ((sg * srcA1 * 256 + dst.g * dst.a * (256 - srcA1)) / outA) >>> 8,
      ((sb * srcA1 * 256 + dst.b * dst.a * (256 - srcA1)) / outA) >>> 8,
      outA⟩

/-- Claim C1 amended: as `specBlendOver`, but each blended color channel is
additionally reduced mod 256 (the `unsigned char` storage of `Color`). -/
def specBlendOverByte (dst src tint : Color) : Color :=
  let sr := (src.r * (tint.r + 1)) >>> 8
  let sg := (src.g * (tint.g + 1)) >>> 8
  let sb := (src.b * (tint.b + 1)) >>> 8
  let sa := (src.a * (tint.a + 1)) >>> 8
  if sa = 0 then dst
  else if sa = 255 then ⟨sr, sg, sb, sa⟩
  else
    let srcA1 := sa + 1
    let outA := (srcA1 * 256 + dst.a * (256 - srcA1)) >>> 8
    ⟨u8 (((sr * srcA1 * 256 + dst.r * dst.a * (256 - srcA1)) / outA) >>> 8),
      u8 (((sg * srcA1 * 256 + dst.g * dst.a * (256 - srcA1)) / outA) >>> 8),
      u8 (((sb * srcA1 * 256 + dst.b * dst.a * (256 - srcA1)) / outA) >>> 8),
      outA⟩

/-- Follows the spec's words (claim C5): linear `width*height*bpp/8`, except
compressed formats smaller than a 4×4 block clamp to a minimum block size —
8 bytes for formats with bpp ≤ 4, 16 bytes for 8-bit-per-pixel block
formats. -/
def specByteSize (width height format : ℤ) : ℤ :=
  if PIXELFORMAT_COMPRESSED_DXT1_RGB ≤ format ∧ width < 4 ∧ height < 4 then
    if pixelFormatBpp format ≤ 4 then 8 else 16
  else Int.tdiv (width * height * pixelFormatBpp format) 8

/-- All 21 pixel-format codes. -/
def pixelFormatList : List ℤ :=
  [PIXELFORMAT_UNCOMPRESSED_GRAYSCALE, PIXELFORMAT_UNCOMPRESSED_GRAY_ALPHA,
   PIXELFORMAT_UNCOMPRESSED_R5G6B5, PIXELFORMAT_UNCOMPRESSED_R8G8B8,
   PIXELFORMAT_UNCOMPRESSED_R5G5B5A1, PIXELFORMAT_UNCOMPRESSED_R4G4B4A4,
   PIXELFORMAT_UNCOMPRESSED_R8G8B8A8, PIXELFORMAT_UNCOMPRESSED_R32,
   PIXELFORMAT_UNCOMPRESSED_R32G32B32, PIXELFORMAT_UNCOMPRESSED_R32G32B32A32,
   PIXELFORMAT_COMPRESSED_DXT1_RGB, PIXELFORMAT_COMPRESSED_DXT1_RGBA,
   PIXELFORMAT_COMPRESSED_DXT3_RGBA, PIXELFORMAT_COMPRESSED_DXT5_RGBA,
   PIXELFORMAT_COMPRESSED_ETC1_RGB, PIXELFORMAT_COMPRESSED_ETC2_RGB,
   PIXELFORMAT_COMPRESSED_ETC2_EAC_RGBA, PIXELFORMAT_COMPRESSED_PVRT_RGB,
   PIXELFORMAT_COMPRESSED_PVRT_RGBA, PIXELFORMAT_COMPRESSED_ASTC_4x4_RGBA,
   PIXELFORMAT_COMPRESSED_ASTC_8x8_RGBA]

/-- Encode a color into a 2-byte R5G6B5 pixel with `SetPixelColor` and decode
it back with `GetPixelColor`. -/
def r5g6b5RoundTrip (c : Color) : Color :=
  GetPixelColor (fun i => (SetPixelColor c PIXELFORMAT_UNCOMPRESSED_R5G6B5).getD i 0) 0
    PIXELFORMAT_UNCOMPRESSED_R5G6B5

/-- Follows the spec's words (claim C9): destination pixel `(x, y)` lies in
the region of the new canvas covered by the old pixel data placed at
`(offsetX, offsetY)`. -/
def inCopiedRegion (offsetX offsetY oldW oldH x y : ℤ) : Prop :=
  offsetX ≤ x ∧ x < offsetX + oldW ∧ offsetY ≤ y ∧ y < offsetY + oldH

instance (ox oy w h x y : ℤ) : Decidable (inCopiedRegion ox oy w h x y) := by
  unfold inCopiedRegion; infer_instance

end RTex

namespace RTex

/-! ## Helper lemmas -/

theorem shiftRight8_eq (n : ℕ) : n >>> 8 = n / 256 := by
  rw [Nat.shiftRight_eq_div_pow]

theorem tinted_lt_256 (a b : ℕ) (ha : a < 256) (hb : b < 256) : (a * (b + 1)) >>> 8 < 256 := by
  rw [shiftRight8_eq]
  have : a * (b + 1) ≤ 255 * 256 := Nat.mul_le_mul (by omega) (by omega)
  omega

theorem outA_nomod (av d : ℕ) (hav : av < 256) (hne : ¬ av = 255) (hd : d < 256) :
    ((av + 1) * 256 + d * (256 - (av + 1))) >>> 8 % 256 =
      ((av + 1) * 256 + d * (256 - (av + 1))) >>> 8 := by
  rw [shiftRight8_eq]
  refine Nat.mod_eq_of_lt ?_
  obtain ⟨B, hB1, hB2⟩ : ∃ B, 256 - (av + 1) = B ∧ (av + 1) + B = 256 :=
    ⟨256 - (av + 1), rfl, by omega⟩
  rw [hB1]
  have e2 : d * B ≤ 255 * B := Nat.mul_le_mul_right _ (by omega)
  generalize d * B = t at e2 ⊢
  omega

theorem outA_pos (av d : ℕ) : 0 < ((av + 1) * 256 + d * (256 - (av + 1))) >>> 8 := by
  rw [shiftRight8_eq]
  generalize d * (256 - (av + 1)) = t
  omega

/-! ## Claim C1 -/

/-- Claim C1, counterexample: at `dst = (255,0,0,1)`, `src = (255,255,255,255)`,
`tint = (255,255,255,1)` the claimed exact red channel is 381, but
`ColorAlphaBlend` returns its `unsigned char` truncation 125. -/
theorem colorAlphaBlend_claim_counterexample :
    ColorAlphaBlend ⟨255, 0, 0, 1⟩ ⟨255, 255, 255, 255⟩ ⟨255, 255, 255, 1⟩ ≠
      specBlendOver ⟨255, 0, 0, 1⟩ ⟨255, 255, 255, 255⟩ ⟨255, 255, 255, 1⟩ ∧
    (specBlendOver ⟨255, 0, 0, 1⟩ ⟨255, 255, 255, 255⟩ ⟨255, 255, 255, 1⟩).r = 381 ∧
    (ColorAlphaBlend ⟨255, 0, 0, 1⟩ ⟨255, 255, 255, 255⟩ ⟨255, 255, 255, 1⟩).r = 125 := by
  decide

/-- Claim C1 (amended): for valid (8-bit) colors, `ColorAlphaBlend` applies the
tint as `channel' = channel*(tintChannel+1) >> 8`, returns `dst` when the
tinted alpha is 0 and the tinted source when it is 255, and otherwise computes
exactly the claimed integer over formulas, with each color channel reduced
mod 256 by its `unsigned char` storage. -/
theorem colorAlphaBlend_eq_spec (dst src tint : Color)
    (hd : dst.valid) (hs : src.valid) (ht : tint.valid) :
    ColorAlphaBlend dst src tint = specBlendOverByte dst src tint := by
  obtain ⟨hdr, hdg, hdb, hda⟩ := hd
  obtain ⟨hsr, hsg, hsb, hsa⟩ := hs
  obtain ⟨htr, htg, htb, hta⟩ := ht
  have br := tinted_lt_256 src.r tint.r hsr htr
  have bg := tinted_lt_256 src.g tint.g hsg htg
  have bb := tinted_lt_256 src.b tint.b hsb htb
  have ba := tinted_lt_256 src.a tint.a hsa hta
  unfold ColorAlphaBlend specBlendOverByte u8
  simp only [Nat.mod_eq_of_lt br, Nat.mod_eq_of_lt bg, Nat.mod_eq_of_lt bb, Nat.mod_eq_of_lt ba]
  generalize (src.r * (tint.r + 1)) >>> 8 = rv at br ⊢
  generalize (src.g * (tint.g + 1)) >>> 8 = gv at bg ⊢
  generalize (src.b * (tint.b + 1)) >>> 8 = bv at bb ⊢
  generalize (src.a * (tint.a + 1)) >>> 8 = av at ba ⊢
  split_ifs with h1 h2 h3
  · rfl
  · rfl
  · rw [outA_nomod av dst.a ba h2 hda]
  · exact absurd ((outA_nomod av dst.a ba h2 hda).symm ▸ outA_pos av dst.a) h3

/-- Witness for `colorAlphaBlend_eq_spec` at a concrete input. -/
theorem colorAlphaBlend_eq_spec_witness :
    ColorAlphaBlend ⟨10, 20, 30, 40⟩ ⟨50, 60, 70, 80⟩ ⟨90, 100, 110, 120⟩ =
      specBlendOverByte ⟨10, 20, 30, 40⟩ ⟨50, 60, 70, 80⟩ ⟨90, 100, 110, 120⟩ :=
  colorAlphaBlend_eq_spec _ _ _ (by decide) (by decide) (by decide)

/-! ## Claim C3 -/

set_option maxRecDepth 4000 in
/-- Claim C3, counterexample: Color{248,252,248,255} does not round-trip
through the R5G6B5 codec (it is not 5/6/5-quantized under the decoder's
`value*255/maxChannel` integer scaling). -/
theorem r5g6b5RoundTrip_claim_counterexample :
    r5g6b5RoundTrip ⟨248, 252, 248, 255⟩ ≠ ⟨248, 252, 248, 255⟩ := by
  decide

set_option maxRecDepth 4000 in
/-- Claim C3 (amended): encoding Color{248,252,248,255} into R5G6B5 and
decoding it back yields Color{246,250,246,255} — the 5/6/5 quantization of
the input under the decoder's `value*255/maxChannel` scaling — and that color
is a true fixed point of the round trip. -/
theorem r5g6b5RoundTrip_amended :
    r5g6b5RoundTrip ⟨248, 252, 248, 255⟩ = ⟨246, 250, 246, 255⟩ ∧
    r5g6b5RoundTrip ⟨246, 250, 246, 255⟩ = ⟨246, 250, 246, 255⟩ := by
  decide

/-! ## Claim C5 -/

set_option maxRecDepth 4000 in
/-- Claim C5, counterexample: ETC1 is a compressed 4-bit-per-pixel block
format, so by the claim a 2×2 image should clamp to 8 bytes; the code clamps
it to 16 (the clamp is decided by enum ranges, not by bpp). -/
theorem getPixelDataSize_claim_counterexample :
    GetPixelDataSize 2 2 PIXELFORMAT_COMPRESSED_ETC1_RGB = 16 ∧
    pixelFormatBpp PIXELFORMAT_COMPRESSED_ETC1_RGB = 4 ∧
    specByteSize 2 2 PIXELFORMAT_COMPRESSED_ETC1_RGB = 8 ∧
    GetPixelDataSize 2 2 PIXELFORMAT_COMPRESSED_ETC1_RGB ≠
      specByteSize 2 2 PIXELFORMAT_COMPRESSED_ETC1_RGB := by
  decide

set_option maxHeartbeats 1000000 in
/-- Claim C5 (amended): `GetPixelDataSize` is `width*height*bpp/8` with each
format's fixed bits-per-pixel, except that when both `width < 4` and
`height < 4` the formats DXT1_RGB and DXT1_RGBA clamp to 8 bytes and the
formats from DXT3_RGBA through ASTC_4x4_RGBA (inclusive) clamp to 16 bytes;
ASTC_8x8_RGBA never clamps.  In particular `GetPixelDataSize 2 2 DXT1_RGBA
= 8`, not the linear 2. -/
theorem getPixelDataSize_amended (w h : ℕ) (f : ℤ) (hf : f ∈ pixelFormatList) :
    GetPixelDataSize w h f =
      (if (w < 4 ∧ h < 4) ∧ (f = PIXELFORMAT_COMPRESSED_DXT1_RGB ∨
          f = PIXELFORMAT_COMPRESSED_DXT1_RGBA) then 8
      else if (w < 4 ∧ h < 4) ∧ (PIXELFORMAT_COMPRESSED_DXT3_RGBA ≤ f ∧
          f ≤ PIXELFORMAT_COMPRESSED_ASTC_4x4_RGBA) then 16
      else Int.tdiv ((w : ℤ) * (h : ℤ) * pixelFormatBpp f) 8) ∧
    GetPixelDataSize 2 2 PIXELFORMAT_COMPRESSED_DXT1_RGBA = 8 := by
  refine ⟨?_, by decide⟩
  have hw : ((w : ℤ) < 4) = (w < 4) := by simp
  have hh : ((h : ℤ) < 4) = (h < 4) := by simp
  fin_cases hf <;>
    (rw [GetPixelDataSize]; norm_num [pixelFormatBpp,
      PIXELFORMAT_UNCOMPRESSED_GRAYSCALE, PIXELFORMAT_UNCOMPRESSED_GRAY_ALPHA,
      PIXELFORMAT_UNCOMPRESSED_R5G6B5, PIXELFORMAT_UNCOMPRESSED_R8G8B8,
      PIXELFORMAT_UNCOMPRESSED_R5G5B5A1, PIXELFORMAT_UNCOMPRESSED_R4G4B4A4,
      PIXELFORMAT_UNCOMPRESSED_R8G8B8A8, PIXELFORMAT_UNCOMPRESSED_R32,
      PIXELFORMAT_UNCOMPRESSED_R32G32B32, PIXELFORMAT_UNCOMPRESSED_R32G32B32A32,
      PIXELFORMAT_COMPRESSED_DXT1_RGB, PIXELFORMAT_COMPRESSED_DXT1_RGBA,
      PIXELFORMAT_COMPRESSED_DXT3_RGBA, PIXELFORMAT_COMPRESSED_DXT5_RGBA,
      PIXELFORMAT_COMPRESSED_ETC1_RGB, PIXELFORMAT_COMPRESSED_ETC2_RGB,
      PIXELFORMAT_COMPRESSED_ETC2_EAC_RGBA, PIXELFORMAT_COMPRESSED_PVRT_RGB,
      PIXELFORMAT_COMPRESSED_PVRT_RGBA, PIXELFORMAT_COMPRESSED_ASTC_4x4_RGBA,
      PIXELFORMAT_COMPRESSED_ASTC_8x8_RGBA, hw, hh])

/-- Witness for `getPixelDataSize_amended` at a concrete input. -/
theorem getPixelDataSize_amended_witness :
    GetPixelDataSize 5 7 PIXELFORMAT_UNCOMPRESSED_R8G8B8 =
      (if ((5 : ℕ) < 4 ∧ (7 : ℕ) < 4) ∧
          (PIXELFORMAT_UNCOMPRESSED_R8G8B8 = PIXELFORMAT_COMPRESSED_DXT1_RGB ∨
          PIXELFORMAT_UNCOMPRESSED_R8G8B8 = PIXELFORMAT_COMPRESSED_DXT1_RGBA) then 8
      else if ((5 : ℕ) < 4 ∧ (7 : ℕ) < 4) ∧
          (PIXELFORMAT_COMPRESSED_DXT3_RGBA ≤ PIXELFORMAT_UNCOMPRESSED_R8G8B8 ∧
          PIXELFORMAT_UNCOMPRESSED_R8G8B8 ≤ PIXELFORMAT_COMPRESSED_ASTC_4x4_RGBA) then 16
      else Int.tdiv (((5 : ℕ) : ℤ) * ((7 : ℕ) : ℤ) * pixelFormatBpp PIXELFORMAT_UNCOMPRESSED_R8G8B8) 8) ∧
    GetPixelDataSize 2 2 PIXELFORMAT_COMPRESSED_DXT1_RGBA = 8 :=
  getPixelDataSize_amended 5 7 PIXELFORMAT_UNCOMPRESSED_R8G8B8 (by decide)

/-! ## Claim C6 -/

/-- Claim C6: `ImageFormat` leaves the image entirely unchanged when the
target format is the sentinel 0, equals the current format, or when either
the current or the target format is compressed. -/
theorem imageFormat_noop (image : Image) (newFormat : ℤ)
    (h : newFormat = 0 ∨ newFormat = image.format ∨
      PIXELFORMAT_COMPRESSED_DXT1_RGB ≤ image.format ∨
      PIXELFORMAT_COMPRESSED_DXT1_RGB ≤ newFormat) :
    ImageFormat image newFormat = image := by
  unfold ImageFormat
  split_ifs with h1 h2 h3 <;>
    first
      | rfl
      | (exfalso; simp only [PIXELFORMAT_COMPRESSED_DXT1_RGB] at *; omega)

/-- Witness for `imageFormat_noop` at a concrete image. -/
theorem imageFormat_noop_witness :
    ImageFormat ⟨fun _ => 3, 4, 2, 2, 1, PIXELFORMAT_UNCOMPRESSED_R8G8B8A8⟩ 0 =
      ⟨fun _ => 3, 4, 2, 2, 1, PIXELFORMAT_UNCOMPRESSED_R8G8B8A8⟩ :=
  imageFormat_noop _ _ (Or.inl rfl)

/-! ## Claim C10 -/

/-- Claim C10: `ImageDrawPixel` returns the destination unchanged whenever the
coordinate is outside the bounds or the data pointer is null. -/
theorem imageDrawPixel_oob (dst : Image) (x y : ℤ) (color : Color)
    (h : dst.dataLen = 0 ∨ x < 0 ∨ dst.width ≤ x ∨ y < 0 ∨ dst.height ≤ y) :
    ImageDrawPixel dst x y color = dst := by
  unfold ImageDrawPixel
  rw [if_pos h]

/-- Witness for `imageDrawPixel_oob` at a concrete out-of-bounds call. -/
theorem imageDrawPixel_oob_witness :
    ImageDrawPixel ⟨fun _ => 9, 100, 10, 10, 1, PIXELFORMAT_UNCOMPRESSED_GRAYSCALE⟩ 12 3
      ⟨1, 2, 3, 4⟩ = ⟨fun _ => 9, 100, 10, 10, 1, PIXELFORMAT_UNCOMPRESSED_GRAYSCALE⟩ :=
  imageDrawPixel_oob _ _ _ _ (by right; right; left; decide)

/-! ## Claim C7 -/

theorem cropRows_c7 (buf : ℕ → ℕ) (n : ℕ) : ∀ i : ℕ,
    cropRows buf 100 90 90 10 4 (fun _ => 0) n i =
      if i < 40 * n then buf (((90 + i / 40) * 100 + 90) * 4 + i % 40) else 0 := by
  induction n with
  | zero => intro i; simp [cropRows]
  | succ n ih =>
    intro i
    simp only [cropRows, copyBytes]
    rw [ih i]
    split_ifs with h1 h2 h3 <;>
      first
        | rfl
        | (exfalso; omega)
        | (congr 1; omega)

/-- Claim C7: cropping a 100×100 R8G8B8A8 image with rect (90, 90, 30, 30)
clamps at the far edges to a 10×10 result whose every pixel `(x, y)` equals
the source pixel at `(90+x, 90+y)`. -/
theorem imageCrop_clamped (buf : ℕ → ℕ) :
    (ImageCrop ⟨buf, 40000, 100, 100, 1, PIXELFORMAT_UNCOMPRESSED_R8G8B8A8⟩
      ⟨90, 90, 30, 30⟩).width = 10 ∧
    (ImageCrop ⟨buf, 40000, 100, 100, 1, PIXELFORMAT_UNCOMPRESSED_R8G8B8A8⟩
      ⟨90, 90, 30, 30⟩).height = 10 ∧
    (ImageCrop ⟨buf, 40000, 100, 100, 1, PIXELFORMAT_UNCOMPRESSED_R8G8B8A8⟩
      ⟨90, 90, 30, 30⟩).dataLen = 400 ∧
    ∀ x y c : ℕ, x < 10 → y < 10 → c < 4 →
      (ImageCrop ⟨buf, 40000, 100, 100, 1, PIXELFORMAT_UNCOMPRESSED_R8G8B8A8⟩
        ⟨90, 90, 30, 30⟩).data ((y * 10 + x) * 4 + c) =
      buf (((90 + y) * 100 + (90 + x)) * 4 + c) := by
  refine ⟨rfl, rfl, rfl, ?_⟩
  intro x y c hx hy hc
  show cropRows buf 100 90 90 10 4 (fun _ => 0) 10 ((y * 10 + x) * 4 + c) =
    buf (((90 + y) * 100 + (90 + x)) * 4 + c)
  rw [cropRows_c7]
  rw [if_pos (by omega)]
  congr 1
  omega

/-- Witness for `imageCrop_clamped` at a concrete buffer and pixel. -/
theorem imageCrop_clamped_witness :
    (ImageCrop ⟨fun i => i % 7, 40000, 100, 100, 1, PIXELFORMAT_UNCOMPRESSED_R8G8B8A8⟩
      ⟨90, 90, 30, 30⟩).data ((2 * 10 + 3) * 4 + 1) = (((90 + 2) * 100 + (90 + 3)) * 4 + 1) % 7 := by
  have h := (imageCrop_clamped (fun i => i % 7)).2.2.2 3 2 1 (by norm_num) (by norm_num) (by norm_num)
  simpa using h

/-! ## Claim C8 -/

/-- Claim C8 (the code at the failing input): cropping a valid non-empty
10×10 grayscale image with rect (-7, -7, 5, 5) — a rectangle fully outside
the bounds — produces an image with `width = -2`, `height = -2` and a
non-empty 4-byte buffer, violating the invariant that width and height are
positive whenever the buffer is non-empty. -/
theorem imageCrop_invariant_violation :
    (ImageCrop ⟨fun _ => 5, 100, 10, 10, 1, PIXELFORMAT_UNCOMPRESSED_GRAYSCALE⟩
      ⟨-7, -7, 5, 5⟩).width = -2 ∧
    (ImageCrop ⟨fun _ => 5, 100, 10, 10, 1, PIXELFORMAT_UNCOMPRESSED_GRAYSCALE⟩
      ⟨-7, -7, 5, 5⟩).height = -2 ∧
    (ImageCrop ⟨fun _ => 5, 100, 10, 10, 1, PIXELFORMAT_UNCOMPRESSED_GRAYSCALE⟩
      ⟨-7, -7, 5, 5⟩).dataLen = 4 := by
  refine ⟨rfl, rfl, rfl⟩

/-! ## Claim C4 -/

theorem Image.ext (a b : Image) (h1 : a.data = b.data) (h2 : a.dataLen = b.dataLen)
    (h3 : a.width = b.width) (h4 : a.height = b.height) (h5 : a.mipmaps = b.mipmaps)
    (h6 : a.format = b.format) : a = b := by
  cases a; cases b; simp_all

theorem imageDrawPixel_rgba8 (img : Image) (x y : ℤ) (c : Color)
    (hf : img.format = PIXELFORMAT_UNCOMPRESSED_R8G8B8A8)
    (hlen : img.dataLen ≠ 0) (hx : 0 ≤ x) (hx2 : x < img.width) (hy : 0 ≤ y)
    (hy2 : y < img.height) :
    ImageDrawPixel img x y c =
      { img with data := writeBytes img.data ((y * img.width + x) * 4) [c.r, c.g, c.b, c.a] } := by
  unfold ImageDrawPixel
  rw [hf, if_neg (by push_neg; exact ⟨hlen, by omega, by omega, by omega, by omega⟩)]
  norm_num [PIXELFORMAT_UNCOMPRESSED_GRAYSCALE, PIXELFORMAT_UNCOMPRESSED_GRAY_ALPHA,
    PIXELFORMAT_UNCOMPRESSED_R5G6B5, PIXELFORMAT_UNCOMPRESSED_R5G5B5A1,
    PIXELFORMAT_UNCOMPRESSED_R4G4B4A4, PIXELFORMAT_UNCOMPRESSED_R8G8B8,
    PIXELFORMAT_UNCOMPRESSED_R8G8B8A8]

theorem row_fill (d : ℕ → ℕ) (b : ℤ) (vs : List ℕ) (m i : ℕ) (hb : 0 ≤ b)
    (hvs : vs.length = 4) :
    repeatPixelRow b 4 (writeBytes d b vs) m i =
      if b ≤ (i : ℤ) ∧ (i : ℤ) < b + 4 * ((m : ℤ) + 1) then vs.getD ((i - b.toNat) % 4) 0
      else d i := by
  induction m generalizing i with
  | zero =>
    simp only [repeatPixelRow, writeBytes, hvs]
    split_ifs with h1 h2 h3 <;>
      first
        | rfl
        | (exfalso; omega)
        | (congr 1; omega)
  | succ m ih =>
    simp only [repeatPixelRow, copyBytes]
    rw [ih i]
    by_cases hin : b + ((m : ℤ) + 1) * 4 ≤ (i : ℤ) ∧ (i : ℤ) < b + ((m : ℤ) + 1) * 4 + 4
    · rw [if_pos hin]
      rw [ih ((b + (i : ℤ) - (b + ((m : ℤ) + 1) * 4)).toNat)]
      rw [if_pos (by constructor <;> omega)]
      rw [if_pos (by constructor <;> omega)]
      congr 1
      omega
    · rw [if_neg hin]
      split_ifs with h1 h2 <;>
        first
          | rfl
          | (exfalso; omega)
          | (congr 1; omega)

theorem drawRect_c4 (buf : ℕ → ℕ) (color : Color) (n : ℕ) (hn : n ≤ 5) :
    drawRectRows ⟨buf, 400, 10, 10, 1, PIXELFORMAT_UNCOMPRESSED_R8G8B8A8⟩ 0 0 7 4 color n =
      ⟨fun i => if i < 40 * n ∧ i % 40 < 28 then
          [color.r, color.g, color.b, color.a].getD (i % 4) 0 else buf i,
        400, 10, 10, 1, PIXELFORMAT_UNCOMPRESSED_R8G8B8A8⟩ := by
  induction n with
  | zero =>
    refine Image.ext _ _ ?_ rfl rfl rfl rfl rfl
    funext i
    simp [drawRectRows]
  | succ n ih =>
    have hn5 : n ≤ 5 := by omega
    rw [drawRectRows, ih hn5]
    simp only [drawRectRow]
    rw [imageDrawPixel_rgba8 _ _ _ _ rfl (by norm_num) (by norm_num)
      (by dsimp only; omega) (by norm_num) (by dsimp only; omega)]
    refine Image.ext _ _ ?_ rfl rfl rfl rfl rfl
    funext i
    dsimp only
    rw [show ((7 : ℤ) - 1).toNat = 6 from rfl]
    rw [row_fill]
    · split_ifs with h1 h2 <;>
        first
          | rfl
          | (exfalso; omega)
          | (congr 1; omega)
    · omega
    · rfl

/-- Claim C4 (the code at the failing input): on a 10×10 R8G8B8A8 buffer,
`ImageDrawRectangleRec` with rect (-2, 0, 5, 5) does NOT clamp to width 3:
the source's negative-origin adjustment `rec.width -= rec.x` enlarges the
width to 7, so exactly the 35 pixels with `x ≤ 6 ∧ y ≤ 4` are painted (every
other byte is left unchanged), not the 15 pixels the claim states. -/
theorem imageDrawRectangleRec_negx (buf : ℕ → ℕ) (color : Color) :
    (ImageDrawRectangleRec ⟨buf, 400, 10, 10, 1, PIXELFORMAT_UNCOMPRESSED_R8G8B8A8⟩
      ⟨-2, 0, 5, 5⟩ color).width = 10 ∧
    (ImageDrawRectangleRec ⟨buf, 400, 10, 10, 1, PIXELFORMAT_UNCOMPRESSED_R8G8B8A8⟩
      ⟨-2, 0, 5, 5⟩ color).dataLen = 400 ∧
    ∀ x y c : ℕ, x < 10 → y < 10 → c < 4 →
      (ImageDrawRectangleRec ⟨buf, 400, 10, 10, 1, PIXELFORMAT_UNCOMPRESSED_R8G8B8A8⟩
        ⟨-2, 0, 5, 5⟩ color).data ((y * 10 + x) * 4 + c) =
      if x < 7 ∧ y < 5 then [color.r, color.g, color.b, color.a].getD c 0
      else buf ((y * 10 + x) * 4 + c) := by
  have he : ImageDrawRectangleRec ⟨buf, 400, 10, 10, 1, PIXELFORMAT_UNCOMPRESSED_R8G8B8A8⟩
      ⟨-2, 0, 5, 5⟩ color =
      drawRectRows ⟨buf, 400, 10, 10, 1, PIXELFORMAT_UNCOMPRESSED_R8G8B8A8⟩ 0 0 7 4 color 5 :=
    rfl
  rw [he, drawRect_c4 buf color 5 (by norm_num)]
  refine ⟨rfl, rfl, ?_⟩
  intro x y c hx hy hc
  dsimp only
  split_ifs with h1 h2 h3 <;>
    first
      | rfl
      | (exfalso; omega)
      | (congr 1; omega)

/-- Witness for `imageDrawRectangleRec_negx`: pixel (5, 2) — outside the
rectangle the claim says is painted — receives the fill color. -/
theorem imageDrawRectangleRec_negx_witness :
    (ImageDrawRectangleRec ⟨fun _ => 0, 400, 10, 10, 1, PIXELFORMAT_UNCOMPRESSED_R8G8B8A8⟩
      ⟨-2, 0, 5, 5⟩ ⟨9, 8, 7, 6⟩).data ((2 * 10 + 5) * 4 + 1) = 8 := by
  have h := (imageDrawRectangleRec_negx (fun _ => 0) ⟨9, 8, 7, 6⟩).2.2 5 2 1
    (by norm_num) (by norm_num) (by norm_num)
  simpa using h

/-! ## Claim C9 -/

theorem blit_row_decomp (newW bpp dstX dstY srcW : ℤ) (k : ℕ) (x y c : ℕ)
    (hx : (x : ℤ) < newW) (hc : (c : ℤ) < bpp)
    (hdstX : 0 ≤ dstX) (hfit : dstX + srcW ≤ newW)
    (hlo : (dstY * newW + dstX) * bpp + (k : ℤ) * (newW * bpp) ≤ ((y : ℤ) * newW + (x : ℤ)) * bpp + (c : ℤ))
    (hhi : ((y : ℤ) * newW + (x : ℤ)) * bpp + (c : ℤ) <
      (dstY * newW + dstX) * bpp + (k : ℤ) * (newW * bpp) + srcW * bpp) :
    (y : ℤ) = dstY + k ∧ dstX ≤ (x : ℤ) ∧ (x : ℤ) < dstX + srcW := by
  have hbpp : 0 < bpp := lt_of_le_of_lt (Int.ofNat_nonneg c) hc
  have hnewW : 0 < newW := lt_of_le_of_lt (Int.ofNat_nonneg x) hx
  have hD : ((y : ℤ) * newW + (x : ℤ)) * bpp + (c : ℤ) -
      ((dstY * newW + dstX) * bpp + (k : ℤ) * (newW * bpp)) =
      ((y : ℤ) - (dstY + k)) * (newW * bpp) + ((x : ℤ) - dstX) * bpp + (c : ℤ) := by ring
  have hD0 : 0 ≤ ((y : ℤ) - (dstY + k)) * (newW * bpp) + ((x : ℤ) - dstX) * bpp + (c : ℤ) := by
    rw [← hD]; linarith
  have hD1 : ((y : ℤ) - (dstY + k)) * (newW * bpp) + ((x : ℤ) - dstX) * bpp + (c : ℤ) <
      srcW * bpp := by
    rw [← hD]; linarith
  have hwb : 0 < newW * bpp := mul_pos hnewW hbpp
  rcases lt_trichotomy ((y : ℤ)) (dstY + k) with hlt | heq | hgt
  · exfalso
    have e1 : ((y : ℤ) - (dstY + k)) * (newW * bpp) ≤ -1 * (newW * bpp) :=
      mul_le_mul_of_nonneg_right (by omega) hwb.le
    have e2 : ((x : ℤ) - dstX) * bpp ≤ (newW - 1 - dstX) * bpp :=
      mul_le_mul_of_nonneg_right (by omega) hbpp.le
    have e3 : 0 ≤ dstX * bpp := mul_nonneg hdstX hbpp.le
    nlinarith
  · constructor
    · exact heq
    rw [heq] at hD0 hD1
    simp only [sub_self, zero_mul, zero_add] at hD0 hD1
    constructor
    · by_contra hxl
      push_neg at hxl
      have e2 : ((x : ℤ) - dstX) * bpp ≤ -1 * bpp :=
        mul_le_mul_of_nonneg_right (by omega) hbpp.le
      nlinarith
    · by_contra hxr
      push_neg at hxr
      have e2 : srcW * bpp ≤ ((x : ℤ) - dstX) * bpp :=
        mul_le_mul_of_nonneg_right (by omega) hbpp.le
      nlinarith
  · exfalso
    have e1 : 1 * (newW * bpp) ≤ ((y : ℤ) - (dstY + k)) * (newW * bpp) :=
      mul_le_mul_of_nonneg_right (by omega) hwb.le
    have e2 : (-dstX) * bpp ≤ ((x : ℤ) - dstX) * bpp :=
      mul_le_mul_of_nonneg_right (by omega) hbpp.le
    have e4 : srcW * bpp ≤ (newW - dstX) * bpp :=
      mul_le_mul_of_nonneg_right (by omega) hbpp.le
    nlinarith

theorem canvasRows_outside (src : ℕ → ℕ) (srcWpx srcX srcY bpp newW srcW dstOff0 : ℤ)
    (n : ℕ) (i : ℕ)
    (h : ∀ k : ℕ, k < n → ¬(dstOff0 + (k : ℤ) * (newW * bpp) ≤ (i : ℤ) ∧
      (i : ℤ) < dstOff0 + (k : ℤ) * (newW * bpp) + srcW * bpp)) :
    canvasRows src srcWpx srcX srcY bpp newW srcW dstOff0 (fun _ => 0) n i = 0 := by
  induction n with
  | zero => rfl
  | succ n ih =>
    simp only [canvasRows, copyBytes]
    rw [if_neg (by have := h n (by omega); omega)]
    exact ih (fun k hk => h k (by omega))

theorem canvas_zero_core (src : ℕ → ℕ) (srcWpx srcX srcY bpp newW srcW dstX dstY : ℤ)
    (rows : ℕ) (x y c : ℕ) (hx : (x : ℤ) < newW) (hc : (c : ℤ) < bpp)
    (hdstX : 0 ≤ dstX) (hfit : dstX + srcW ≤ newW)
    (hout : ¬(dstX ≤ (x : ℤ) ∧ (x : ℤ) < dstX + srcW ∧ dstY ≤ (y : ℤ) ∧
      (y : ℤ) < dstY + rows)) :
    canvasRows src srcWpx srcX srcY bpp newW srcW ((dstY * newW + dstX) * bpp) (fun _ => 0) rows
      ((((y : ℤ) * newW + (x : ℤ)) * bpp + (c : ℤ)).toNat) = 0 := by
  have hbpp : 0 < bpp := lt_of_le_of_lt (Int.ofNat_nonneg c) hc
  have hnewW : 0 < newW := lt_of_le_of_lt (Int.ofNat_nonneg x) hx
  have hnn : 0 ≤ ((y : ℤ) * newW + (x : ℤ)) * bpp + (c : ℤ) := by positivity
  apply canvasRows_outside
  intro k hk hmem
  rw [Int.toNat_of_nonneg hnn] at hmem
  obtain ⟨hy', hx1, hx2⟩ := blit_row_decomp newW bpp dstX dstY srcW k x y c hx hc hdstX hfit
    hmem.1 hmem.2
  exact hout ⟨hx1, hx2, by omega, by omega⟩

theorem inCopiedRegion_iff (ox oy w h x y : ℤ) :
    inCopiedRegion ox oy w h x y ↔ (ox ≤ x ∧ x < ox + w ∧ oy ≤ y ∧ y < oy + h) :=
  Iff.rfl

/-- Claim C9, counterexample: with the new canvas size equal to the current
size, `ImageResizeCanvas` is a complete no-op — the offset is ignored and the
old bytes stay where they were — so a byte outside the copied (overlap)
region can be non-zero, contrary to the claim. -/
theorem imageResizeCanvas_claim_counterexample :
    ImageResizeCanvas ⟨fun _ => 7, 1, 1, 1, 1, PIXELFORMAT_UNCOMPRESSED_GRAYSCALE⟩ 1 1 1 0
      ⟨255, 0, 0, 255⟩ = ⟨fun _ => 7, 1, 1, 1, 1, PIXELFORMAT_UNCOMPRESSED_GRAYSCALE⟩ ∧
    ¬ inCopiedRegion 1 0 1 1 0 0 ∧
    (ImageResizeCanvas ⟨fun _ => 7, 1, 1, 1, 1, PIXELFORMAT_UNCOMPRESSED_GRAYSCALE⟩ 1 1 1 0
      ⟨255, 0, 0, 255⟩).data 0 = 7 := by
  refine ⟨rfl, by decide, rfl⟩

/-- Claim C9 (amended): for every non-empty uncompressed image and every new
canvas size DIFFERENT from the current one, `ImageResizeCanvas` copies only
the overlapping region of the old pixel data: every byte of a destination
pixel outside that region is zero, and the fill-color argument has no effect
on the output (the fill-independence holds unconditionally). -/
theorem imageResizeCanvas_amended (image : Image) (newW newH ox oy : ℤ)
    (h1 : image.dataLen ≠ 0) (h2 : 0 < image.width) (h3 : 0 < image.height)
    (h4 : image.format < PIXELFORMAT_COMPRESSED_DXT1_RGB)
    (h5 : newW ≠ image.width ∨ newH ≠ image.height) :
    (∀ f1 f2 : Color, ImageResizeCanvas image newW newH ox oy f1 =
      ImageResizeCanvas image newW newH ox oy f2) ∧
    ∀ (x y c : ℕ) (fill : Color), (x : ℤ) < newW → (y : ℤ) < newH →
      (c : ℤ) < GetPixelDataSize 1 1 image.format →
      ¬ inCopiedRegion ox oy image.width image.height x y →
      (ImageResizeCanvas image newW newH ox oy fill).data
        ((((y : ℤ) * newW + (x : ℤ)) * GetPixelDataSize 1 1 image.format + (c : ℤ)).toNat) = 0 := by
  refine ⟨fun f1 f2 => rfl, ?_⟩
  intro x y c fill hx hy hc hreg
  unfold ImageResizeCanvas
  rw [if_neg (by push_neg; exact ⟨h1, by omega, by omega⟩), if_neg (not_le.mpr h4), if_pos h5]
  dsimp only
  split_ifs <;>
    (refine canvas_zero_core _ _ _ _ _ _ _ _ _ _ x y c hx hc ?_ ?_ ?_ <;>
      first
        | omega
        | (intro hconj
           obtain ⟨ha, hb, hc2, hd⟩ := hconj
           exact hreg ((inCopiedRegion_iff _ _ _ _ _ _).mpr ⟨by omega, by omega, by omega, by omega⟩)))

/-- Witness for `imageResizeCanvas_amended` at a concrete input. -/
theorem imageResizeCanvas_amended_witness :
    (ImageResizeCanvas ⟨fun i => (i + 1) * 10, 4, 2, 2, 1, PIXELFORMAT_UNCOMPRESSED_GRAYSCALE⟩
      4 4 1 1 ⟨9, 9, 9, 9⟩).data ((((0 : ℕ) : ℤ) * 4 + ((0 : ℕ) : ℤ)) *
        GetPixelDataSize 1 1 PIXELFORMAT_UNCOMPRESSED_GRAYSCALE + ((0 : ℕ) : ℤ)).toNat = 0 :=
  (imageResizeCanvas_amended ⟨fun i => (i + 1) * 10, 4, 2, 2, 1,
      PIXELFORMAT_UNCOMPRESSED_GRAYSCALE⟩ 4 4 1 1 (by norm_num) (by norm_num) (by norm_num)
      (by norm_num [PIXELFORMAT_UNCOMPRESSED_GRAYSCALE, PIXELFORMAT_COMPRESSED_DXT1_RGB])
      (Or.inl (by norm_num))).2 0 0 0 ⟨9, 9, 9, 9⟩ (by norm_num) (by norm_num)
      (by decide) (by decide)

/-! ## Claim C2 -/

theorem shiftLeft_lor_eq_add (a b k : ℕ) (h : b < 2 ^ k) : a <<< k ||| b = a <<< k + b := by
  apply Nat.eq_of_testBit_eq
  intro i
  rw [Nat.testBit_lor, Nat.shiftLeft_eq, mul_comm, Nat.testBit_mul_pow_two_add a h i]
  rcases lt_or_ge i k with hik | hik
  · have h1 : (2 ^ k * a).testBit i = false := by
      rw [mul_comm, ← Nat.shiftLeft_eq]
      simp [Nat.testBit_shiftLeft]
      omega
    rw [mul_comm] at h1 ⊢
    rw [← Nat.shiftLeft_eq] at h1 ⊢
    rw [h1, if_pos hik]
    simp
  · have h1 : b.testBit i = false :=
      Nat.testBit_eq_false_of_lt (lt_of_lt_of_le h (Nat.pow_le_pow_right (by norm_num) hik))
    rw [h1, if_neg (by omega)]
    rw [mul_comm, ← Nat.shiftLeft_eq]
    rw [Nat.testBit_shiftLeft]
    simp [hik]

theorem pack565 (r g b : ℕ) (hr : r < 32) (hg : g < 64) (hb : b < 32) :
    r <<< 11 ||| g <<< 5 ||| b = r * 2048 + (g * 32 + b) := by
  have e5 : g <<< 5 = g * 32 := by rw [Nat.shiftLeft_eq]
  have hb5 : b < 2 ^ 5 := by norm_num; omega
  have hgb : g <<< 5 + b < 2 ^ 11 := by rw [e5]; norm_num; omega
  rw [Nat.lor_assoc, shiftLeft_lor_eq_add g b 5 hb5, shiftLeft_lor_eq_add r _ 11 hgb,
    Nat.shiftLeft_eq, e5]

set_option maxRecDepth 8000 in
theorem q5_rt : ∀ v : ℕ, v < 32 → u8 (qRound (u8 (v * 255 / 31)) 31) = v := by decide

set_option maxRecDepth 8000 in
theorem q6_rt : ∀ v : ℕ, v < 64 → u8 (qRound (u8 (v * 255 / 63)) 63) = v := by decide

/-- The R5G6B5 decode/encode round trip writes back the original two bytes. -/
theorem pixList_r5g6b5 (srcBuf : ℕ → ℕ) (hsrc : ∀ i, srcBuf i < 256) (q : ℤ) :
    SetPixelColor (GetPixelColor srcBuf q PIXELFORMAT_UNCOMPRESSED_R5G6B5)
      PIXELFORMAT_UNCOMPRESSED_R5G6B5 = [readByte srcBuf q, readByte srcBuf (q + 1)] := by
  show shortBytes
      (u8 (qRound (u8 ((readShort srcBuf q >>> 11) * 255 / 31)) 31) <<< 11 |||
        u8 (qRound (u8 (((readShort srcBuf q >>> 5) &&& 63) * 255 / 63)) 63) <<< 5 |||
        u8 (qRound (u8 ((readShort srcBuf q &&& 31) * 255 / 31)) 31)) = _
  have hp : readShort srcBuf q < 65536 := by
    unfold readShort readByte
    have h0 := hsrc q.toNat
    have h1 := hsrc (q + 1).toNat
    omega
  have h5 : readShort srcBuf q >>> 11 < 32 := by
    rw [Nat.shiftRight_eq_div_pow]
    omega
  have h6 : (readShort srcBuf q >>> 5) &&& 63 < 64 := by
    have := Nat.and_le_right (n := readShort srcBuf q >>> 5) (m := 63)
    omega
  have hb : readShort srcBuf q &&& 31 < 32 := by
    have := Nat.and_le_right (n := readShort srcBuf q) (m := 31)
    omega
  rw [q5_rt _ h5, q6_rt _ h6, q5_rt _ hb, pack565 _ _ _ h5 h6 hb]
  have e1 : readShort srcBuf q >>> 11 = readShort srcBuf q / 2048 := by
    rw [Nat.shiftRight_eq_div_pow]
  have e2 : (readShort srcBuf q >>> 5) &&& 63 = readShort srcBuf q / 32 % 64 := by
    rw [Nat.shiftRight_eq_div_pow]
    have := @Nat.and_pow_two_sub_one_eq_mod (readShort srcBuf q / 2 ^ 5) 6
    norm_num at this ⊢
    omega
  have e3 : readShort srcBuf q &&& 31 = readShort srcBuf q % 32 := by
    have := @Nat.and_pow_two_sub_one_eq_mod (readShort srcBuf q) 5
    norm_num at this
    omega
  rw [e1, e2, e3]
  have hv : readShort srcBuf q / 2048 * 2048 + (readShort srcBuf q / 32 % 64 * 32 +
      readShort srcBuf q % 32) = readShort srcBuf q := by omega
  rw [hv]
  have hrs : readShort srcBuf q = readByte srcBuf q + 256 * readByte srcBuf (q + 1) := rfl
  have hb0 := hsrc q.toNat
  have hb1 := hsrc (q + 1).toNat
  unfold readByte at hrs hb0 hb1 ⊢
  simp only [shortBytes, hrs, List.cons.injEq, and_true]
  constructor <;> omega

/-- A grayscale pixel whose byte survives the float luma round trip writes
back unchanged. -/
theorem pixList_gray (srcBuf : ℕ → ℕ) (q : ℤ)
    (hluma : lumaGray (srcBuf q.toNat) (srcBuf q.toNat) (srcBuf q.toNat) = srcBuf q.toNat) :
    SetPixelColor (GetPixelColor srcBuf q PIXELFORMAT_UNCOMPRESSED_GRAYSCALE)
      PIXELFORMAT_UNCOMPRESSED_GRAYSCALE = [readByte srcBuf q] := by
  show [lumaGray (readByte srcBuf q) (readByte srcBuf q) (readByte srcBuf q)] = _
  unfold readByte
  rw [hluma]

/-- An R8G8B8 pixel decodes and re-encodes to its own three bytes. -/
theorem pixList_r8g8b8 (srcBuf : ℕ → ℕ) (q : ℤ) :
    SetPixelColor (GetPixelColor srcBuf q PIXELFORMAT_UNCOMPRESSED_R8G8B8)
      PIXELFORMAT_UNCOMPRESSED_R8G8B8 =
      [readByte srcBuf q, readByte srcBuf (q + 1), readByte srcBuf (q + 2)] := rfl

/-- With no blending required, the per-pixel loop of the blit writes exactly
the bytes a `memcpy` of `n` pixels would. -/
theorem blitPixels_eq_copy (srcBuf : ℕ → ℕ) (fmt : ℤ) (bppN : ℕ) (tint : Color)
    (hpix : ∀ q : ℤ, 0 ≤ q →
      (SetPixelColor (GetPixelColor srcBuf q fmt) fmt).length = bppN ∧
      ∀ j : ℕ, j < bppN →
        (SetPixelColor (GetPixelColor srcBuf q fmt) fmt).getD j 0 = readByte srcBuf (q + j)) :
    ∀ (n : ℕ) (d : ℕ → ℕ) (pSrc pDst : ℤ), 0 ≤ pSrc → 0 ≤ pDst → ∀ i : ℕ,
      blitPixels srcBuf fmt fmt tint false bppN bppN pSrc pDst d n i =
        copyBytes d pDst srcBuf pSrc ((n : ℤ) * bppN) i := by
  intro n
  induction n with
  | zero =>
    intro d pSrc pDst hs hd i
    simp only [blitPixels, copyBytes, Nat.cast_zero, zero_mul, add_zero]
    rw [if_neg (by omega)]
  | succ n ih =>
    intro d pSrc pDst hs hd i
    have hnb : (0 : ℤ) ≤ (n : ℤ) * (bppN : ℤ) := by positivity
    simp only [blitPixels, Bool.false_eq_true, if_false, writeBytes]
    obtain ⟨hlen, hget⟩ := hpix (pSrc + (n : ℤ) * bppN) (by positivity)
    rw [hlen]
    have hexp : ((n : ℤ) + 1) * (bppN : ℤ) = (n : ℤ) * bppN + bppN := by ring
    by_cases hin : pDst + (n : ℤ) * bppN ≤ (i : ℤ) ∧ (i : ℤ) < pDst + (n : ℤ) * bppN + bppN
    · rw [if_pos hin]
      rw [hget _ (by omega)]
      unfold readByte
      simp only [copyBytes]
      rw [if_pos (by push_cast; rw [hexp]; constructor <;> omega)]
      congr 1
      omega
    · rw [if_neg hin]
      rw [ih d pSrc pDst hs hd i]
      simp only [copyBytes]
      by_cases h1 : pDst ≤ (i : ℤ) ∧ (i : ℤ) < pDst + (n : ℤ) * bppN
      · rw [if_pos h1, if_pos (by push_cast; rw [hexp]; constructor <;> omega)]
      · rw [if_neg h1, if_neg (by push_cast; rw [hexp]; omega)]

/-- The row-level fast path (direct `memcpy`) and the forced per-pixel slow
path produce identical bytes, row by row. -/
theorem blitRows_fast_eq_slow (srcBuf : ℕ → ℕ) (fmt : ℤ) (bppN : ℕ) (tint : Color)
    (strideS strideD : ℤ) (w : ℕ)
    (hpix : ∀ q : ℤ, 0 ≤ q →
      (SetPixelColor (GetPixelColor srcBuf q fmt) fmt).length = bppN ∧
      ∀ j : ℕ, j < bppN →
        (SetPixelColor (GetPixelColor srcBuf q fmt) fmt).getD j 0 = readByte srcBuf (q + j))
    (hstS : 0 ≤ strideS) (hstD : 0 ≤ strideD) :
    ∀ (rows : ℕ) (dstBuf : ℕ → ℕ) (pSrcBase pDstBase : ℤ), 0 ≤ pSrcBase → 0 ≤ pDstBase →
      ∀ i : ℕ,
      blitRows srcBuf fmt fmt tint false true bppN bppN strideS strideD pSrcBase pDstBase
        (w : ℤ) dstBuf rows i =
      blitRows srcBuf fmt fmt tint false false bppN bppN strideS strideD pSrcBase pDstBase
        (w : ℤ) dstBuf rows i := by
  intro rows
  induction rows with
  | zero => intro dstBuf pSrcBase pDstBase hs hd i; rfl
  | succ rows ih =>
    intro dstBuf pSrcBase pDstBase hs hd i
    have hrs : (0 : ℤ) ≤ (rows : ℤ) * strideS :=
      mul_nonneg (Int.ofNat_nonneg rows) hstS
    have hrd : (0 : ℤ) ≤ (rows : ℤ) * strideD :=
      mul_nonneg (Int.ofNat_nonneg rows) hstD
    simp only [blitRows, if_true, Bool.false_eq_true, if_false, Int.toNat_natCast]
    rw [blitPixels_eq_copy srcBuf fmt bppN tint hpix w _ _ _
      (by exact add_nonneg hs hrs) (by exact add_nonneg hd hrd) i]
    simp only [copyBytes]
    by_cases h1 : pDstBase + (rows : ℤ) * strideD ≤ (i : ℤ) ∧
        (i : ℤ) < pDstBase + (rows : ℤ) * strideD + (w : ℤ) * (bppN : ℤ)
    · rw [if_pos h1, if_pos h1]
    · rw [if_neg h1, if_neg h1]
      exact ih dstBuf pSrcBase pDstBase hs hd i
/-- `C2` counterexample: a 4x4 grayscale source filled with byte 45 drawn onto
an 8x8 zero destination with opaque white tint.  The fast path (raw row copy)
leaves byte 45; forcing the per-pixel slow path stores
`(unsigned char)((45/255.0f)*0.299f + ... )*255.0f) = 44` (IEEE binary32
round-to-nearest-even, no FMA), so the two paths differ. -/
theorem imageDraw_fast_eq_slow_counterexample :
    (ImageDraw (fun s _ _ _ _ _ => s)
        ⟨fun _ => 0, 64, 8, 8, 1, PIXELFORMAT_UNCOMPRESSED_GRAYSCALE⟩
        ⟨fun _ => 45, 16, 4, 4, 1, PIXELFORMAT_UNCOMPRESSED_GRAYSCALE⟩
        ⟨0, 0, 4, 4⟩ ⟨0, 0, 4, 4⟩ WHITE).data 0 = 45 ∧
    (ImageDrawSlow (fun s _ _ _ _ _ => s)
        ⟨fun _ => 0, 64, 8, 8, 1, PIXELFORMAT_UNCOMPRESSED_GRAYSCALE⟩
        ⟨fun _ => 45, 16, 4, 4, 1, PIXELFORMAT_UNCOMPRESSED_GRAYSCALE⟩
        ⟨0, 0, 4, 4⟩ ⟨0, 0, 4, 4⟩ WHITE).data 0 = 44 := by
  constructor
  · rfl
  · decide

set_option maxRecDepth 4000 in
/-- `C2` (amended): for a 4x4 source drawn onto an 8x8 destination of the same
alpha-free format with opaque white tint, the fast row-copy path and the forced
per-pixel decode/encode slow path agree byte for byte — unconditionally for
R8G8B8 and R5G6B5, and for grayscale under the additional hypothesis that
every source byte is a fixed point of the float luma round trip (which exactly
the bytes 45, 85, 90, 95, 167, 170, 180, 190, 227, 237, 247 are not). -/
theorem imageDraw_fast_eq_slow (resample : Resampler) (fmt : ℤ)
    (hfmt : fmt = PIXELFORMAT_UNCOMPRESSED_GRAYSCALE ∨
      fmt = PIXELFORMAT_UNCOMPRESSED_R8G8B8 ∨ fmt = PIXELFORMAT_UNCOMPRESSED_R5G6B5)
    (srcBuf dstBuf : ℕ → ℕ) (hsrc : ∀ i, srcBuf i < 256)
    (hluma : fmt = PIXELFORMAT_UNCOMPRESSED_GRAYSCALE →
      ∀ i : ℕ, lumaGray (srcBuf i) (srcBuf i) (srcBuf i) = srcBuf i) :
    ImageDraw resample ⟨dstBuf, (GetPixelDataSize 8 8 fmt).toNat, 8, 8, 1, fmt⟩
      ⟨srcBuf, (GetPixelDataSize 4 4 fmt).toNat, 4, 4, 1, fmt⟩
      ⟨0, 0, 4, 4⟩ ⟨0, 0, 4, 4⟩ WHITE =
    ImageDrawSlow resample ⟨dstBuf, (GetPixelDataSize 8 8 fmt).toNat, 8, 8, 1, fmt⟩
      ⟨srcBuf, (GetPixelDataSize 4 4 fmt).toNat, 4, 4, 1, fmt⟩
      ⟨0, 0, 4, 4⟩ ⟨0, 0, 4, 4⟩ WHITE := by
  rcases hfmt with hf | hf | hf <;> subst hf
  · have hpix : ∀ q : ℤ, 0 ≤ q →
        (SetPixelColor (GetPixelColor srcBuf q PIXELFORMAT_UNCOMPRESSED_GRAYSCALE)
          PIXELFORMAT_UNCOMPRESSED_GRAYSCALE).length = 1 ∧
        ∀ j : ℕ, j < 1 →
          (SetPixelColor (GetPixelColor srcBuf q PIXELFORMAT_UNCOMPRESSED_GRAYSCALE)
            PIXELFORMAT_UNCOMPRESSED_GRAYSCALE).getD j 0 = readByte srcBuf (q + j) := by
      intro q hq
      rw [pixList_gray srcBuf q (hluma rfl q.toNat)]
      refine ⟨rfl, ?_⟩
      intro j hj
      interval_cases j
      show readByte srcBuf q = readByte srcBuf (q + ((0 : ℕ) : ℤ))
      norm_num
    have he1 : ImageDraw resample
        ⟨dstBuf, (GetPixelDataSize 8 8 PIXELFORMAT_UNCOMPRESSED_GRAYSCALE).toNat, 8, 8, 1,
          PIXELFORMAT_UNCOMPRESSED_GRAYSCALE⟩
        ⟨srcBuf, (GetPixelDataSize 4 4 PIXELFORMAT_UNCOMPRESSED_GRAYSCALE).toNat, 4, 4, 1,
          PIXELFORMAT_UNCOMPRESSED_GRAYSCALE⟩ ⟨0, 0, 4, 4⟩ ⟨0, 0, 4, 4⟩ WHITE =
        ⟨blitRows srcBuf PIXELFORMAT_UNCOMPRESSED_GRAYSCALE PIXELFORMAT_UNCOMPRESSED_GRAYSCALE
          WHITE false true 1 1 4 8 0 0 4 dstBuf 4, 64, 8, 8, 1,
          PIXELFORMAT_UNCOMPRESSED_GRAYSCALE⟩ := rfl
    have he2 : ImageDrawSlow resample
        ⟨dstBuf, (GetPixelDataSize 8 8 PIXELFORMAT_UNCOMPRESSED_GRAYSCALE).toNat, 8, 8, 1,
          PIXELFORMAT_UNCOMPRESSED_GRAYSCALE⟩
        ⟨srcBuf, (GetPixelDataSize 4 4 PIXELFORMAT_UNCOMPRESSED_GRAYSCALE).toNat, 4, 4, 1,
          PIXELFORMAT_UNCOMPRESSED_GRAYSCALE⟩ ⟨0, 0, 4, 4⟩ ⟨0, 0, 4, 4⟩ WHITE =
        ⟨blitRows srcBuf PIXELFORMAT_UNCOMPRESSED_GRAYSCALE PIXELFORMAT_UNCOMPRESSED_GRAYSCALE
          WHITE false false 1 1 4 8 0 0 4 dstBuf 4, 64, 8, 8, 1,
          PIXELFORMAT_UNCOMPRESSED_GRAYSCALE⟩ := rfl
    rw [he1, he2]
    congr 1
    funext i
    exact blitRows_fast_eq_slow srcBuf PIXELFORMAT_UNCOMPRESSED_GRAYSCALE 1 WHITE 4 8 4 hpix
      (by norm_num) (by norm_num) 4 dstBuf 0 0 le_rfl le_rfl i
  · have hpix : ∀ q : ℤ, 0 ≤ q →
        (SetPixelColor (GetPixelColor srcBuf q PIXELFORMAT_UNCOMPRESSED_R8G8B8)
          PIXELFORMAT_UNCOMPRESSED_R8G8B8).length = 3 ∧
        ∀ j : ℕ, j < 3 →
          (SetPixelColor (GetPixelColor srcBuf q PIXELFORMAT_UNCOMPRESSED_R8G8B8)
            PIXELFORMAT_UNCOMPRESSED_R8G8B8).getD j 0 = readByte srcBuf (q + j) := by
      intro q hq
      rw [pixList_r8g8b8 srcBuf q]
      refine ⟨rfl, ?_⟩
      intro j hj
      interval_cases j
      · show readByte srcBuf q = readByte srcBuf (q + ((0 : ℕ) : ℤ))
        norm_num
      · show readByte srcBuf (q + 1) = readByte srcBuf (q + ((1 : ℕ) : ℤ))
        norm_num
      · show readByte srcBuf (q + 2) = readByte srcBuf (q + ((2 : ℕ) : ℤ))
        norm_num
    have he1 : ImageDraw resample
        ⟨dstBuf, (GetPixelDataSize 8 8 PIXELFORMAT_UNCOMPRESSED_R8G8B8).toNat, 8, 8, 1,
          PIXELFORMAT_UNCOMPRESSED_R8G8B8⟩
        ⟨srcBuf, (GetPixelDataSize 4 4 PIXELFORMAT_UNCOMPRESSED_R8G8B8).toNat, 4, 4, 1,
          PIXELFORMAT_UNCOMPRESSED_R8G8B8⟩ ⟨0, 0, 4, 4⟩ ⟨0, 0, 4, 4⟩ WHITE =
        ⟨blitRows srcBuf PIXELFORMAT_UNCOMPRESSED_R8G8B8 PIXELFORMAT_UNCOMPRESSED_R8G8B8
          WHITE false true 3 3 12 24 0 0 4 dstBuf 4, 192, 8, 8, 1,
          PIXELFORMAT_UNCOMPRESSED_R8G8B8⟩ := rfl
    have he2 : ImageDrawSlow resample
        ⟨dstBuf, (GetPixelDataSize 8 8 PIXELFORMAT_UNCOMPRESSED_R8G8B8).toNat, 8, 8, 1,
          PIXELFORMAT_UNCOMPRESSED_R8G8B8⟩
        ⟨srcBuf, (GetPixelDataSize 4 4 PIXELFORMAT_UNCOMPRESSED_R8G8B8).toNat, 4, 4, 1,
          PIXELFORMAT_UNCOMPRESSED_R8G8B8⟩ ⟨0, 0, 4, 4⟩ ⟨0, 0, 4, 4⟩ WHITE =
        ⟨blitRows srcBuf PIXELFORMAT_UNCOMPRESSED_R8G8B8 PIXELFORMAT_UNCOMPRESSED_R8G8B8
          WHITE false false 3 3 12 24 0 0 4 dstBuf 4, 192, 8, 8, 1,
          PIXELFORMAT_UNCOMPRESSED_R8G8B8⟩ := rfl
    rw [he1, he2]
    congr 1
    funext i
    exact blitRows_fast_eq_slow srcBuf PIXELFORMAT_UNCOMPRESSED_R8G8B8 3 WHITE 12 24 4 hpix
      (by norm_num) (by norm_num) 4 dstBuf 0 0 le_rfl le_rfl i
  · have hpix : ∀ q : ℤ, 0 ≤ q →
        (SetPixelColor (GetPixelColor srcBuf q PIXELFORMAT_UNCOMPRESSED_R5G6B5)
          PIXELFORMAT_UNCOMPRESSED_R5G6B5).length = 2 ∧
        ∀ j : ℕ, j < 2 →
          (SetPixelColor (GetPixelColor srcBuf q PIXELFORMAT_UNCOMPRESSED_R5G6B5)
            PIXELFORMAT_UNCOMPRESSED_R5G6B5).getD j 0 = readByte srcBuf (q + j) := by
      intro q hq
      rw [pixList_r5g6b5 srcBuf hsrc q]
      refine ⟨rfl, ?_⟩
      intro j hj
      interval_cases j
      · show readByte srcBuf q = readByte srcBuf (q + ((0 : ℕ) : ℤ))
        norm_num
      · show readByte srcBuf (q + 1) = readByte srcBuf (q + ((1 : ℕ) : ℤ))
        norm_num
    have he1 : ImageDraw resample
        ⟨dstBuf, (GetPixelDataSize 8 8 PIXELFORMAT_UNCOMPRESSED_R5G6B5).toNat, 8, 8, 1,
          PIXELFORMAT_UNCOMPRESSED_R5G6B5⟩
        ⟨srcBuf, (GetPixelDataSize 4 4 PIXELFORMAT_UNCOMPRESSED_R5G6B5).toNat, 4, 4, 1,
          PIXELFORMAT_UNCOMPRESSED_R5G6B5⟩ ⟨0, 0, 4, 4⟩ ⟨0, 0, 4, 4⟩ WHITE =
        ⟨blitRows srcBuf PIXELFORMAT_UNCOMPRESSED_R5G6B5 PIXELFORMAT_UNCOMPRESSED_R5G6B5
          WHITE false true 2 2 8 16 0 0 4 dstBuf 4, 128, 8, 8, 1,
          PIXELFORMAT_UNCOMPRESSED_R5G6B5⟩ := rfl
    have he2 : ImageDrawSlow resample
        ⟨dstBuf, (GetPixelDataSize 8 8 PIXELFORMAT_UNCOMPRESSED_R5G6B5).toNat, 8, 8, 1,
          PIXELFORMAT_UNCOMPRESSED_R5G6B5⟩
        ⟨srcBuf, (GetPixelDataSize 4 4 PIXELFORMAT_UNCOMPRESSED_R5G6B5).toNat, 4, 4, 1,
          PIXELFORMAT_UNCOMPRESSED_R5G6B5⟩ ⟨0, 0, 4, 4⟩ ⟨0, 0, 4, 4⟩ WHITE =
        ⟨blitRows srcBuf PIXELFORMAT_UNCOMPRESSED_R5G6B5 PIXELFORMAT_UNCOMPRESSED_R5G6B5
          WHITE false false 2 2 8 16 0 0 4 dstBuf 4, 128, 8, 8, 1,
          PIXELFORMAT_UNCOMPRESSED_R5G6B5⟩ := rfl
    rw [he1, he2]
    congr 1
    funext i
    exact blitRows_fast_eq_slow srcBuf PIXELFORMAT_UNCOMPRESSED_R5G6B5 2 WHITE 8 16 4 hpix
      (by norm_num) (by norm_num) 4 dstBuf 0 0 le_rfl le_rfl i

set_option maxRecDepth 8000 in
theorem imageDraw_fast_eq_slow_witness :
    ImageDraw (fun s _ _ _ _ _ => s)
      ⟨fun _ => 0, (GetPixelDataSize 8 8 PIXELFORMAT_UNCOMPRESSED_GRAYSCALE).toNat, 8, 8, 1,
        PIXELFORMAT_UNCOMPRESSED_GRAYSCALE⟩
      ⟨fun _ => 100, (GetPixelDataSize 4 4 PIXELFORMAT_UNCOMPRESSED_GRAYSCALE).toNat, 4, 4, 1,
        PIXELFORMAT_UNCOMPRESSED_GRAYSCALE⟩ ⟨0, 0, 4, 4⟩ ⟨0, 0, 4, 4⟩ WHITE =
    ImageDrawSlow (fun s _ _ _ _ _ => s)
      ⟨fun _ => 0, (GetPixelDataSize 8 8 PIXELFORMAT_UNCOMPRESSED_GRAYSCALE).toNat, 8, 8, 1,
        PIXELFORMAT_UNCOMPRESSED_GRAYSCALE⟩
      ⟨fun _ => 100, (GetPixelDataSize 4 4 PIXELFORMAT_UNCOMPRESSED_GRAYSCALE).toNat, 4, 4, 1,
        PIXELFORMAT_UNCOMPRESSED_GRAYSCALE⟩ ⟨0, 0, 4, 4⟩ ⟨0, 0, 4, 4⟩ WHITE :=
  imageDraw_fast_eq_slow (fun s _ _ _ _ _ => s) PIXELFORMAT_UNCOMPRESSED_GRAYSCALE (Or.inl rfl)
    (fun _ => 100) (fun _ => 0) (fun _ => by show (100 : ℕ) < 256; decide)
    (fun _ _ => by show lumaGray 100 100 100 = 100; decide)

end RTex

